import Mathlib

/-!
# Verification of the NovusX game engine (`src/rl/env.py`)

A shallow embedding of the turn-based tactics engine `NovusXEnv` from
`src/rl/env.py`, together with theorems settling the frozen claims about it.

Modelling conventions:
* The mutable 5×5 grid of optional `Unit` references is embedded as a total
  function `Pos → Option Unit`, updated functionally at the positions the
  source mutates.
* The Python `players` list of two dicts is embedded as a total function
  `Nat → Player`; the source only ever indexes it at `0`, `1`,
  `current_player` and `1 - current_player`.
* Python ints are `Int` where the source can go negative in principle
  (`actions_remaining`, `deployments_remaining`) and `Nat` for counters.
* Python float rewards are embedded as `ℚ`; every reward constant in the
  source is a short decimal literal and no claim depends on float rounding.
* The md5 state hash of `_compute_state_hash` is embedded as the canonical
  pre-hash data itself (row-major cell contents, control-point owners,
  current player); md5 is modelled as injective.
* `raise RuntimeError` in `step` is embedded as `Except.error`; the
  `(success, message)` returns of the `_apply_*` helpers are embedded as
  `Except String ApplyState`.
* Console logging (`_log_draw`) and the observation encoding
  (`_get_observation`) are omitted: no claim refers to them, and `step`'s
  control flow does not depend on them.
-/

namespace NovusX

/-- `UnitType` from `env.py` (the `EMPTY = 0` member is only used by the
observation encoding; units on the grid always carry one of these six). -/
inductive UnitType where
  | swordsman
  | shieldman
  | axeman
  | cavalry
  | archer
  | spearman
  deriving DecidableEq

/-- Python `UnitType(n)` for `n` in 1..6.  The source only ever converts
values in that range (in `_parse_action`, `action // 25 + 1 ≤ 6` holds
whenever `action < DEPLOY_ACTIONS`); out-of-range inputs, on which Python
would raise, are mapped to `swordsman` here and never reached. -/
def unitTypeOfNat : Nat → UnitType
  | 2 => UnitType.shieldman
  | 3 => UnitType.axeman
  | 4 => UnitType.cavalry
  | 5 => UnitType.archer
  | 6 => UnitType.spearman
  | _ => UnitType.swordsman

/-- `UnitType.name`, used only to build the deploy-cap error string. -/
def unitName : UnitType → String
  | UnitType.swordsman => "SWORDSMAN"
  | UnitType.shieldman => "SHIELDMAN"
  | UnitType.axeman => "AXEMAN"
  | UnitType.cavalry => "CAVALRY"
  | UnitType.archer => "ARCHER"
  | UnitType.spearman => "SPEARMAN"

/-- A board position `(row, col)`, 0-indexed as in the source. -/
abbrev Pos := Nat × Nat

/-- The `Unit` dataclass.  The Python `id` string
`f"{player}-{name}-{counter}"` is represented by its unique counter. -/
structure Unit where
  id : Nat
  owner_id : Nat
  unit_type : UnitType
  position : Pos
  acted_this_turn : Bool
  deriving DecidableEq

/-- One entry of the `players` list (a dict in the source). -/
structure Player where
  id : Nat
  actions_remaining : Int
  deployments_remaining : Int
  deployment_counts : UnitType → Nat

/-- The `GameState` dataclass.  The 5×5 list-of-lists grid is a total
function on positions. -/
structure GameState where
  grid : Pos → Option Unit
  current_player : Nat
  turn_number : Nat
  players : Nat → Player
  free_deployments_remaining : Nat
  has_acted_this_turn : Bool

/-- `GameOutcome` from `env.py`. -/
inductive GameOutcome where
  | in_progress
  | player_0_win
  | player_1_win
  | draw
  deriving DecidableEq

/-- `DrawReason` from `env.py`. -/
inductive DrawReason where
  | no_reason
  | max_turns
  | repeated_state
  | no_progress
  deriving DecidableEq

/-- The structured result of `_parse_action`. -/
inductive GameAction where
  | deploy (unit_type : UnitType) (col : Nat)
  | move (source target : Pos)
  | attack (source target : Pos)
  | rotate (source target : Pos)
  | end_turn
  deriving DecidableEq

/-- `DEPLOY_ACTIONS = 6 * 5 * 5`. -/
def DEPLOY_ACTIONS : Nat := 150

/-- `MOVE_ACTIONS = 25 * 25`. -/
def MOVE_ACTIONS : Nat := 625

/-- `ATTACK_ACTIONS = 25 * 25`. -/
def ATTACK_ACTIONS : Nat := 625

/-- `ROTATE_ACTIONS = 25 * 25`. -/
def ROTATE_ACTIONS : Nat := 625

/-- `END_TURN_ACTIONS = 1`. -/
def END_TURN_ACTIONS : Nat := 1

/-- `ACTION_SPACE_SIZE = 150 + 625 + 625 + 625 + 1 = 2026`. -/
def ACTION_SPACE_SIZE : Nat :=
  DEPLOY_ACTIONS + MOVE_ACTIONS + ATTACK_ACTIONS + ROTATE_ACTIONS + END_TURN_ACTIONS

/-- `MAX_TURN_LIMIT`. -/
def MAX_TURN_LIMIT : Nat := 1000

/-- `REPEATED_STATE_LIMIT`. -/
def REPEATED_STATE_LIMIT : Nat := 10

/-- `NO_PROGRESS_TURN_LIMIT`. -/
def NO_PROGRESS_TURN_LIMIT : Nat := 100

/-- `MAX_DEPLOYMENTS_PER_TYPE`. -/
def MAX_DEPLOYMENTS_PER_TYPE : Nat := 3

/-- `_parse_action`: decode a flat action index into a structured action.
The final `divmod` assignments in the Python deploy/move/attack/rotate
branches amount to `source = divmod(a // 25, 5)` and
`target = divmod(a % 25, 5)` on the block-relative index `a`. -/
def parse_action (action : Nat) : GameAction :=
  if action < DEPLOY_ACTIONS then
    GameAction.deploy (unitTypeOfNat (action / 25 + 1)) (action % 5)
  else
    let a1 := action - DEPLOY_ACTIONS
    if a1 < MOVE_ACTIONS then
      GameAction.move (a1 / 25 / 5, a1 / 25 % 5) (a1 % 25 / 5, a1 % 25 % 5)
    else
      let a2 := a1 - MOVE_ACTIONS
      if a2 < ATTACK_ACTIONS then
        GameAction.attack (a2 / 25 / 5, a2 / 25 % 5) (a2 % 25 / 5, a2 % 25 % 5)
      else
        let a3 := a2 - ATTACK_ACTIONS
        if a3 < ROTATE_ACTIONS then
          GameAction.rotate (a3 / 25 / 5, a3 / 25 % 5) (a3 % 25 / 5, a3 % 25 % 5)
        else
          GameAction.end_turn

/-- `_encode_deploy`. -/
def encode_deploy (unit_type col : Nat) : Nat :=
  (unit_type - 1) * 25 + col

/-- `_encode_move`. -/
def encode_move (source target : Pos) : Nat :=
  DEPLOY_ACTIONS + (source.1 * 5 + source.2) * 25 + (target.1 * 5 + target.2)

/-- `_encode_attack`. -/
def encode_attack (source target : Pos) : Nat :=
  DEPLOY_ACTIONS + MOVE_ACTIONS + (source.1 * 5 + source.2) * 25 + (target.1 * 5 + target.2)

/-- `_encode_rotate`. -/
def encode_rotate (source target : Pos) : Nat :=
  DEPLOY_ACTIONS + MOVE_ACTIONS + ATTACK_ACTIONS +
    (source.1 * 5 + source.2) * 25 + (target.1 * 5 + target.2)

example : ACTION_SPACE_SIZE = 2026 := by decide

example : parse_action 0 = GameAction.deploy UnitType.swordsman 0 := by decide

example : parse_action 2025 = GameAction.end_turn := by decide

example : parse_action (encode_move (1, 2) (3, 4)) = GameAction.move (1, 2) (3, 4) := by decide

/-- `UNIT_STATS` move ranges: cavalry 2, everything else 1. -/
def move_range : UnitType → Nat
  | UnitType.cavalry => 2
  | _ => 1

/-- `UNIT_STATS` attack ranges: archer and spearman 2, everything else 1. -/
def attack_range : UnitType → Nat
  | UnitType.archer => 2
  | UnitType.spearman => 2
  | _ => 1

/-- `MELEE_BEATS`. -/
def melee_beats : UnitType → List UnitType
  | UnitType.swordsman =>
      [UnitType.archer, UnitType.cavalry, UnitType.axeman, UnitType.swordsman, UnitType.spearman]
  | UnitType.shieldman => [UnitType.archer]
  | UnitType.axeman =>
      [UnitType.archer, UnitType.shieldman, UnitType.cavalry, UnitType.axeman, UnitType.spearman]
  | UnitType.cavalry => [UnitType.archer, UnitType.cavalry, UnitType.spearman]
  | UnitType.archer => [UnitType.archer]
  | UnitType.spearman =>
      [UnitType.archer, UnitType.shieldman, UnitType.cavalry, UnitType.spearman]

/-- `RANGED_BEATS`; the source dict has entries only for archer and spearman
and is read with `.get(type, [])`, so other types give the empty list. -/
def ranged_beats : UnitType → List UnitType
  | UnitType.archer =>
      [UnitType.archer, UnitType.cavalry, UnitType.axeman, UnitType.swordsman, UnitType.spearman]
  | UnitType.spearman => [UnitType.archer, UnitType.cavalry, UnitType.spearman]
  | _ => []

/-- `CONTROL_POINTS = [(2, 0), (2, 2), (2, 4)]`. -/
def CONTROL_POINTS : List Pos := [(2, 0), (2, 2), (2, 4)]

/-- `OUTSIDE_POINTS = [(2, 0), (2, 4)]`. -/
def OUTSIDE_POINTS : List Pos := [(2, 0), (2, 4)]

/-- All 25 grid positions in row-major order (the source's nested
`for row in range(5): for col in range(5)` loops). -/
def cells : List Pos :=
  (List.range 5).flatMap fun r => (List.range 5).map fun c => (r, c)

/-- `abs(a - b)` on Python ints, for 0-indexed coordinates. -/
def abs_diff (a b : Nat) : Nat :=
  if a ≤ b then b - a else a - b

/-- `_get_distance`: Manhattan distance, except that one diagonal step
counts as 2. -/
def get_distance (a b : Pos) : Nat :=
  let dx := abs_diff a.2 b.2
  let dy := abs_diff a.1 b.1
  if dx = 1 ∧ dy = 1 then 2 else dx + dy

/-- Functional update of the grid at one position (a Python item
assignment `grid[r][c] = v`). -/
def update_grid (g : Pos → Option Unit) (p : Pos) (v : Option Unit) : Pos → Option Unit :=
  fun q => if q = p then v else g q

/-- Functional update of the players list at one index
(in-place mutation of `players[i]` in the source). -/
def update_players (ps : Nat → Player) (i : Nat) (p : Player) : Nat → Player :=
  fun j => if j = i then p else ps j

/-- `_controls_position`. -/
def controls_position (s : GameState) (player_id : Nat) (p : Pos) : Bool :=
  match s.grid p with
  | some u => u.owner_id == player_id
  | none => false

/-- `_get_control_owner`. -/
def control_owner (s : GameState) (p : Pos) : Option Nat :=
  (s.grid p).map fun u => u.owner_id

/-- `_count_control_points`. -/
def count_control_points (s : GameState) (player_id : Nat) : Nat :=
  (CONTROL_POINTS.filter fun p => controls_position s player_id p).length

/-- `_count_units`. -/
def count_units (s : GameState) (player_id : Nat) : Nat :=
  (cells.filter fun p =>
    match s.grid p with
    | some u => u.owner_id == player_id
    | none => false).length

/-- `_can_move`. -/
def can_move (s : GameState) (u : Unit) (source target : Pos) : Bool :=
  if source = target then false
  else
    match s.grid target with
    | some _ => false
    | none => get_distance source target ≤ move_range u.unit_type

/-- The strictly-between coordinates walked by
`for x in range(a + step, b, step)` with `step = ±1`, in step order. -/
def between_cells (a b : Nat) : List Nat :=
  if a < b then (List.range (b - a - 1)).map fun i => a + 1 + i
  else (List.range (a - b - 1)).map fun i => a - 1 - i

/-- `_has_line_of_sight`.  The source's diagonal-adjacency branch and its
final default branch both return `True`. -/
def has_line_of_sight (s : GameState) (source target : Pos) : Bool :=
  let adx := abs_diff source.2 target.2
  let ady := abs_diff source.1 target.1
  if adx = 0 ∧ 1 < ady then
    (between_cells source.1 target.1).all fun r => (s.grid (r, source.2)).isNone
  else if ady = 0 ∧ 1 < adx then
    (between_cells source.2 target.2).all fun c => (s.grid (source.1, c)).isNone
  else if adx = 1 ∧ ady = 1 then true
  else true

/-- `_can_attack`. -/
def can_attack (s : GameState) (attacker : Unit) (source target : Pos) (defender : Unit) : Bool :=
  let dist := get_distance source target
  if attack_range attacker.unit_type < dist then false
  else
    let manhattan := abs_diff source.1 target.1 + abs_diff source.2 target.2
    let is_melee := manhattan = 1
    if ¬ is_melee ∧
        (attacker.unit_type = UnitType.archer ∨ attacker.unit_type = UnitType.spearman) then
      if defender.unit_type = UnitType.shieldman then false
      else if ¬ (ranged_beats attacker.unit_type).contains defender.unit_type then false
      else has_line_of_sight s source target
    else
      let attacker_wins := (melee_beats attacker.unit_type).contains defender.unit_type
      let defender_wins := (melee_beats defender.unit_type).contains attacker.unit_type
      attacker_wins || defender_wins

/-- The midpoint cell of a distance-2 orthogonal rotate,
`((source[0]+target[0])//2, (source[1]+target[1])//2)`. -/
def mid_pos (source target : Pos) : Pos :=
  ((source.1 + target.1) / 2, (source.2 + target.2) / 2)

/-- `_can_rotate`. -/
def can_rotate (s : GameState) (u : Unit) (source target : Pos) (player_id : Nat) : Bool :=
  match s.grid target with
  | none => false
  | some target_unit =>
    if ¬ target_unit.owner_id = player_id then false
    else if u.unit_type = target_unit.unit_type then false
    else
      let dx := abs_diff target.2 source.2
      let dy := abs_diff target.1 source.1
      let is_diagonal := dx = 1 ∧ dy = 1
      let manhattan := dx + dy
      if manhattan = 1 then true
      else if is_diagonal ∧ u.unit_type = UnitType.cavalry then true
      else if manhattan = 2 ∧ (dx = 0 ∨ dy = 0) ∧ u.unit_type = UnitType.cavalry then
        (s.grid (mid_pos source target)).isNone
      else false

/-- `_check_winner`: control-point sweep for player 0 then 1, then (after
turn 10) elimination for player 0 then 1. -/
def check_winner (s : GameState) : Option Nat :=
  if count_control_points s 0 = 3 then some 0
  else if count_control_points s 1 = 3 then some 1
  else if 10 < s.turn_number then
    if count_units s 1 = 0 ∧ 0 < count_units s 0 then some 0
    else if count_units s 0 = 0 ∧ 0 < count_units s 1 then some 1
    else none
  else none

/-- The canonical data hashed by `_compute_state_hash`: row-major cell
contents as `(unit_type, owner)` or empty, control-point owners in sorted
order (the list is already sorted), and the current player.  md5 is
modelled as the identity on this canonical representation. -/
abbrev StateHash := List (Option (UnitType × Nat)) × List (Option Nat) × Nat

/-- `_compute_state_hash`. -/
def compute_state_hash (s : GameState) : StateHash :=
  (cells.map fun p => (s.grid p).map fun u => (u.unit_type, u.owner_id),
   CONTROL_POINTS.map fun p => control_owner s p,
   s.current_player)

/-- The two engine-level no-progress counters
(`turns_since_last_capture`, `turns_since_last_unit_death`). -/
structure DrawCounters where
  turns_since_last_capture : Nat
  turns_since_last_unit_death : Nat
  deriving DecidableEq

/-- The mutable engine data threaded through `_apply_*`: the game state,
the no-progress counters (`_end_turn` increments them) and `_unit_counter`
(`_apply_deploy` increments it). -/
structure ApplyState where
  s : GameState
  dc : DrawCounters
  unit_counter : Nat

/-- The deploy home row, `0 if player_id == 0 else 4`. -/
def deploy_row (player_id : Nat) : Nat :=
  if player_id = 0 then 0 else 4

/-- `_end_turn`: increment the no-progress counters, recompute the incoming
player's resources from control-point bonuses, reset all acted flags,
switch the current player and advance the turn counter. -/
def end_turn (s : GameState) (dc : DrawCounters) : GameState × DrawCounters :=
  let new_player := 1 - s.current_player
  let dc2 : DrawCounters :=
    ⟨dc.turns_since_last_capture + 1, dc.turns_since_last_unit_death + 1⟩
  let middle_bonus := if controls_position s new_player (2, 2) then 1 else 0
  let side_control := (OUTSIDE_POINTS.filter fun p => controls_position s new_player p).length
  let both_sides := side_control = 2
  let p := s.players new_player
  let p2 : Player :=
    { p with
      actions_remaining := 1 + middle_bonus,
      deployments_remaining :=
        p.deployments_remaining + (if both_sides then 1 else 0) }
  let s2 : GameState :=
    { s with
      players := update_players s.players new_player p2,
      free_deployments_remaining := if 0 < side_control then 1 else 0,
      grid := fun q => (s.grid q).map fun u => { u with acted_this_turn := false },
      current_player := new_player,
      turn_number := s.turn_number + 1,
      has_acted_this_turn := false }
  (s2, dc2)

/-- `_apply_deploy`. -/
def apply_deploy (a : ApplyState) (unit_type : UnitType) (col : Nat) (player_id : Nat) :
    Except String ApplyState :=
  let s := a.s
  let player := s.players player_id
  if player.deployments_remaining ≤ 0 then Except.error "No deployments remaining"
  else
    let row := deploy_row player_id
    match s.grid (row, col) with
    | some _ => Except.error "Tile occupied"
    | none =>
      if MAX_DEPLOYMENTS_PER_TYPE ≤ player.deployment_counts unit_type then
        Except.error ("Max 3 of " ++ unitName unit_type ++ " already deployed")
      else
        let uc := a.unit_counter + 1
        let u : Unit :=
          { id := uc, owner_id := player_id, unit_type := unit_type,
            position := (row, col), acted_this_turn := true }
        let player2 : Player :=
          { player with
            deployments_remaining := player.deployments_remaining - 1,
            actions_remaining := player.actions_remaining - 1,
            deployment_counts := fun t =>
              if t = unit_type then player.deployment_counts unit_type + 1
              else player.deployment_counts t }
        let s2 : GameState :=
          { s with
            grid := update_grid s.grid (row, col) (some u),
            players := update_players s.players player_id player2,
            has_acted_this_turn := true }
        if player2.actions_remaining ≤ 0 then
          Except.ok ⟨(end_turn s2 a.dc).1, (end_turn s2 a.dc).2, uc⟩
        else Except.ok ⟨s2, a.dc, uc⟩

/-- `_apply_move`. -/
def apply_move (a : ApplyState) (source target : Pos) (player_id : Nat) :
    Except String ApplyState :=
  let s := a.s
  match s.grid source with
  | none => Except.error "No friendly unit at source"
  | some u =>
    if ¬ u.owner_id = player_id then Except.error "No friendly unit at source"
    else if u.acted_this_turn then Except.error "Unit already acted"
    else if ¬ can_move s u source target then Except.error "Invalid move"
    else
      let u2 : Unit := { u with position := target, acted_this_turn := true }
      let player := s.players player_id
      let player2 : Player := { player with actions_remaining := player.actions_remaining - 1 }
      let s2 : GameState :=
        { s with
          grid := update_grid (update_grid s.grid source none) target (some u2),
          players := update_players s.players player_id player2,
          has_acted_this_turn := true }
      if player2.actions_remaining ≤ 0 then
        Except.ok ⟨(end_turn s2 a.dc).1, (end_turn s2 a.dc).2, a.unit_counter⟩
      else Except.ok ⟨s2, a.dc, a.unit_counter⟩

/-- The combat resolution of `_apply_attack` as the pair
`(remove_attacker, remove_defender)`: the melee table both ways at
orthogonal adjacency (both, one, or neither unit removed), the attacker's
ranged table otherwise (the attacker is never removed). -/
def attack_removals (attacker defender : Unit) (source target : Pos) : Bool × Bool :=
  let dist := abs_diff source.1 target.1 + abs_diff source.2 target.2
  let is_melee := dist = 1
  let ranged :=
    ¬ is_melee ∧
      (attacker.unit_type = UnitType.archer ∨ attacker.unit_type = UnitType.spearman)
  if ranged then
    ((false : Bool), (ranged_beats attacker.unit_type).contains defender.unit_type)
  else
    let attacker_wins := (melee_beats attacker.unit_type).contains defender.unit_type
    let defender_wins := (melee_beats defender.unit_type).contains attacker.unit_type
    if attacker_wins && defender_wins then (true, true)
    else if attacker_wins then (false, true)
    else if defender_wins then (true, false)
    else (false, false)

/-- `_apply_attack`: resolves combat with the melee table at orthogonal
adjacency and the attacker's ranged table otherwise (ranged attacks never
remove the attacker); the attacker's acted flag is set only if it
survives. -/
def apply_attack (a : ApplyState) (source target : Pos) (player_id : Nat) :
    Except String ApplyState :=
  let s := a.s
  match s.grid source with
  | none => Except.error "No friendly unit at source"
  | some attacker =>
    if ¬ attacker.owner_id = player_id then Except.error "No friendly unit at source"
    else if attacker.acted_this_turn then Except.error "Unit already acted"
    else
      match s.grid target with
      | none => Except.error "No enemy unit at target"
      | some defender =>
        if defender.owner_id = player_id then Except.error "No enemy unit at target"
        else if ¬ can_attack s attacker source target defender then
          Except.error "Invalid attack"
        else
          let removals := attack_removals attacker defender source target
          let remove_attacker := removals.1
          let remove_defender := removals.2
          let grid1 :=
            if remove_attacker then update_grid s.grid source none
            else update_grid s.grid source (some { attacker with acted_this_turn := true })
          let grid2 :=
            if remove_defender then update_grid grid1 target none
            else grid1
          let player := s.players player_id
          let player2 : Player := { player with actions_remaining := player.actions_remaining - 1 }
          let s2 : GameState :=
            { s with
              grid := grid2,
              players := update_players s.players player_id player2,
              has_acted_this_turn := true }
          if player2.actions_remaining ≤ 0 then
            Except.ok ⟨(end_turn s2 a.dc).1, (end_turn s2 a.dc).2, a.unit_counter⟩
          else Except.ok ⟨s2, a.dc, a.unit_counter⟩

/-- `_apply_rotate`: the geometry checks are inlined in the source exactly
as in `_can_rotate`; `geom_err` collects the early-return error of the
if/elif chain, `none` meaning fall-through to the swap. -/
def apply_rotate (a : ApplyState) (source target : Pos) (player_id : Nat) :
    Except String ApplyState :=
  let s := a.s
  match s.grid source with
  | none => Except.error "No friendly unit at source"
  | some u =>
    if ¬ u.owner_id = player_id then Except.error "No friendly unit at source"
    else if u.acted_this_turn then Except.error "Unit already acted"
    else
      match s.grid target with
      | none => Except.error "No friendly unit at target"
      | some target_unit =>
        if ¬ target_unit.owner_id = player_id then Except.error "No friendly unit at target"
        else if u.unit_type = target_unit.unit_type then
          Except.error "Cannot swap units of same type"
        else
          let dx := abs_diff target.2 source.2
          let dy := abs_diff target.1 source.1
          let is_diagonal := dx = 1 ∧ dy = 1
          let manhattan := dx + dy
          let geom_err : Option String :=
            if manhattan = 1 then none
            else if is_diagonal then
              if ¬ u.unit_type = UnitType.cavalry then some "Only cavalry can do diagonal swaps"
              else none
            else if manhattan = 2 ∧ (dx = 0 ∨ dy = 0) then
              if ¬ u.unit_type = UnitType.cavalry then some "Only cavalry can do long rotations"
              else if (s.grid (mid_pos source target)).isSome then
                some "Middle tile not empty for long rotation"
              else none
            else some "Invalid rotation distance"
          match geom_err with
          | some e => Except.error e
          | none =>
            let u2 : Unit := { u with position := target, acted_this_turn := true }
            let tu2 : Unit := { target_unit with position := source }
            let player := s.players player_id
            let player2 : Player :=
              { player with actions_remaining := player.actions_remaining - 1 }
            let s2 : GameState :=
              { s with
                grid := update_grid (update_grid s.grid source (some tu2)) target (some u2),
                players := update_players s.players player_id player2,
                has_acted_this_turn := true }
            if player2.actions_remaining ≤ 0 then
              Except.ok ⟨(end_turn s2 a.dc).1, (end_turn s2 a.dc).2, a.unit_counter⟩
            else Except.ok ⟨s2, a.dc, a.unit_counter⟩

/-- `_apply_action`: `END_TURN` is always applied; every other action first
requires `actions_remaining > 0` (the Python guard sits before the
dispatch; it is written once per mutating branch here so that each branch
is a standalone equation). -/
def apply_action (a : ApplyState) (act : GameAction) (player_id : Nat) :
    Except String ApplyState :=
  match act with
  | GameAction.end_turn =>
    Except.ok ⟨(end_turn a.s a.dc).1, (end_turn a.s a.dc).2, a.unit_counter⟩
  | GameAction.deploy t col =>
    if (a.s.players player_id).actions_remaining ≤ 0 then
      Except.error "No actions remaining"
    else apply_deploy a t col player_id
  | GameAction.move source target =>
    if (a.s.players player_id).actions_remaining ≤ 0 then
      Except.error "No actions remaining"
    else apply_move a source target player_id
  | GameAction.attack source target =>
    if (a.s.players player_id).actions_remaining ≤ 0 then
      Except.error "No actions remaining"
    else apply_attack a source target player_id
  | GameAction.rotate source target =>
    if (a.s.players player_id).actions_remaining ≤ 0 then
      Except.error "No actions remaining"
    else apply_rotate a source target player_id

/-- The reward table built in `__init__` from the config. -/
structure Rewards where
  win : ℚ
  lose : ℚ
  draw_no_progress : ℚ
  draw_repetition : ℚ
  draw_max_turns : ℚ
  draw_default : ℚ
  turn_penalty : ℚ
  capture_control_point : ℚ
  lose_control_point : ℚ
  control_point_advantage : ℚ
  defeat_enemy_unit : ℚ
  lose_own_unit : ℚ
  invalid_action_penalty : ℚ

/-- The default reward values from `__init__`. -/
def default_rewards : Rewards :=
  { win := 1, lose := -1,
    draw_no_progress := 0, draw_repetition := -0.2, draw_max_turns := -0.3,
    draw_default := 0,
    turn_penalty := -0.001,
    capture_control_point := 0.3, lose_control_point := -0.3,
    control_point_advantage := 0.02,
    defeat_enemy_unit := 0.07, lose_own_unit := -0.07,
    invalid_action_penalty := -0.5 }

/-- The `NovusXEnv` instance: optional game state plus the engine-lifecycle
draw-detection data.  `last_control_ownership` is written on `reset` but
never read by any modelled operation and is omitted;
`max_steps` is configuration that `step` never consults. -/
structure Env where
  rewards : Rewards
  training_mode : Bool
  state : Option GameState
  step_count : Nat
  unit_counter : Nat
  state_hash_counts : StateHash → Nat
  turns_since_last_capture : Nat
  turns_since_last_unit_death : Nat
  game_outcome : GameOutcome
  draw_reason : DrawReason

/-- `_check_draw_conditions`: max-turn draw first; otherwise record the
current state hash and test repetition; otherwise the two no-progress
counters.  Returns the verdict together with the updated hash counts. -/
def check_draw_conditions (s : GameState) (hash_counts : StateHash → Nat)
    (dc : DrawCounters) : (Bool × DrawReason) × (StateHash → Nat) :=
  if MAX_TURN_LIMIT ≤ s.turn_number then ((true, DrawReason.max_turns), hash_counts)
  else
    let h := compute_state_hash s
    let hc : StateHash → Nat := fun k => if k = h then hash_counts k + 1 else hash_counts k
    if REPEATED_STATE_LIMIT ≤ hc h then ((true, DrawReason.repeated_state), hc)
    else if NO_PROGRESS_TURN_LIMIT ≤ dc.turns_since_last_capture ∧
        NO_PROGRESS_TURN_LIMIT ≤ dc.turns_since_last_unit_death then
      ((true, DrawReason.no_progress), hc)
    else ((false, DrawReason.no_reason), hc)

/-- `_get_draw_reward`. -/
def get_draw_reward (env : Env) (reason : DrawReason) : ℚ :=
  if ¬ env.training_mode then env.rewards.draw_default
  else
    match reason with
    | DrawReason.no_progress => env.rewards.draw_no_progress
    | DrawReason.repeated_state => env.rewards.draw_repetition
    | DrawReason.max_turns => env.rewards.draw_max_turns
    | DrawReason.no_reason => env.rewards.draw_default

/-- The data `step` returns (observation omitted): updated engine, reward,
done flag, and the `error` and `winner` entries of the info dict. -/
structure StepResult where
  env : Env
  reward : ℚ
  done : Bool
  error : Option String
  winner : Option Nat

/-- The successful-application tail of `step`: no-progress bookkeeping,
shaping rewards, then win check followed by draw check.  `env1` is the
engine with `step_count` already incremented, `s` the state before the
action and `a2` the apply result. -/
def step_success (env1 : Env) (s : GameState) (player_id : Nat) (a2 : ApplyState) :
    StepResult :=
  let enemy_id := 1 - player_id
  let prev_control := count_control_points s player_id
  let prev_units := count_units s player_id
  let prev_enemy_units := count_units s enemy_id
  let prev_total_units := prev_units + prev_enemy_units
  let s2 := a2.s
  let curr_total_units := count_units s2 0 + count_units s2 1
  let unit_died := curr_total_units < prev_total_units
  let control_changed :=
    CONTROL_POINTS.any fun p => ¬ control_owner s2 p = control_owner s p
  let dc2 : DrawCounters :=
    { turns_since_last_capture :=
        if control_changed then 0 else a2.dc.turns_since_last_capture,
      turns_since_last_unit_death :=
        if unit_died then 0 else a2.dc.turns_since_last_unit_death }
  let curr_control := count_control_points s2 player_id
  let enemy_control := count_control_points s2 enemy_id
  let reward0 := env1.rewards.turn_penalty
  let reward1 :=
    if prev_control < curr_control then
      reward0 + env1.rewards.capture_control_point * ((curr_control : ℚ) - prev_control)
    else if curr_control < prev_control then
      reward0 + env1.rewards.lose_control_point * ((prev_control : ℚ) - curr_control)
    else reward0
  let control_advantage : Int := (curr_control : Int) - enemy_control
  let reward2 :=
    if ¬ control_advantage = 0 then
      reward1 + env1.rewards.control_point_advantage * (control_advantage : ℚ)
    else reward1
  let curr_units := count_units s2 player_id
  let reward3 :=
    if curr_units < prev_units then
      reward2 + env1.rewards.lose_own_unit * ((prev_units : ℚ) - curr_units)
    else reward2
  let curr_enemy_units := count_units s2 enemy_id
  let reward4 :=
    if curr_enemy_units < prev_enemy_units then
      reward3 + env1.rewards.defeat_enemy_unit * ((prev_enemy_units : ℚ) - curr_enemy_units)
    else reward3
  match check_winner s2 with
  | some w =>
    let outcome := if w = 0 then GameOutcome.player_0_win else GameOutcome.player_1_win
    let reward5 := if w = player_id then env1.rewards.win else env1.rewards.lose
    { env :=
        { env1 with
          state := some s2, unit_counter := a2.unit_counter,
          turns_since_last_capture := dc2.turns_since_last_capture,
          turns_since_last_unit_death := dc2.turns_since_last_unit_death,
          game_outcome := outcome },
      reward := reward5, done := true, error := none, winner := some w }
  | none =>
    let res := check_draw_conditions s2 env1.state_hash_counts dc2
    match res.1 with
    | (true, reason) =>
      { env :=
          { env1 with
            state := some s2, unit_counter := a2.unit_counter,
            state_hash_counts := res.2,
            turns_since_last_capture := dc2.turns_since_last_capture,
            turns_since_last_unit_death := dc2.turns_since_last_unit_death,
            game_outcome := GameOutcome.draw, draw_reason := reason },
        reward := get_draw_reward env1 reason, done := true, error := none, winner := none }
    | (false, _) =>
      { env :=
          { env1 with
            state := some s2, unit_counter := a2.unit_counter,
            state_hash_counts := res.2,
            turns_since_last_capture := dc2.turns_since_last_capture,
            turns_since_last_unit_death := dc2.turns_since_last_unit_death },
        reward := reward4, done := false, error := none, winner := none }

/-- `step`: `RuntimeError` before `reset` becomes `Except.error`; acting
out of turn and failed legality checks return the invalid-action penalty
with `done = false` and an error message in the info dict. -/
def step (env : Env) (action : Nat) (player_id : Nat) : Except String StepResult :=
  match env.state with
  | none => Except.error "Environment not initialized. Call reset() first."
  | some s =>
    if ¬ player_id = s.current_player then
      Except.ok
        { env := env, reward := env.rewards.invalid_action_penalty, done := false,
          error := some "Not your turn", winner := none }
    else
      let env1 : Env := { env with step_count := env.step_count + 1 }
      let a0 : ApplyState :=
        ⟨s, ⟨env.turns_since_last_capture, env.turns_since_last_unit_death⟩, env.unit_counter⟩
      match apply_action a0 (parse_action action) player_id with
      | Except.error msg =>
        Except.ok
          { env := env1, reward := env.rewards.invalid_action_penalty, done := false,
            error := some msg, winner := none }
      | Except.ok a2 => Except.ok (step_success env1 s player_id a2)

/-- The fresh `GameState` built by `reset`: empty grid, player 0 to move
with 1 action, both players with 10 deployments and zero per-type counts,
turn number 1. -/
def init_state : GameState :=
  { grid := fun _ => none,
    current_player := 0,
    turn_number := 1,
    players := fun i =>
      if i = 0 then
        { id := 0, actions_remaining := 1, deployments_remaining := 10,
          deployment_counts := fun _ => 0 }
      else
        { id := 1, actions_remaining := 0, deployments_remaining := 10,
          deployment_counts := fun _ => 0 },
    free_deployments_remaining := 0,
    has_acted_this_turn := false }

/-- `reset`: clear counters, hash counts and outcome, install the fresh
game state. -/
def reset (env : Env) : Env :=
  { env with
    state := some init_state,
    step_count := 0,
    unit_counter := 0,
    state_hash_counts := fun _ => 0,
    turns_since_last_capture := 0,
    turns_since_last_unit_death := 0,
    game_outcome := GameOutcome.in_progress,
    draw_reason := DrawReason.no_reason }

/-- `__init__`: an engine that has not been `reset` yet (`state is None`). -/
def init_env (r : Rewards) (tm : Bool) : Env :=
  { rewards := r, training_mode := tm, state := none,
    step_count := 0, unit_counter := 0,
    state_hash_counts := fun _ => 0,
    turns_since_last_capture := 0, turns_since_last_unit_death := 0,
    game_outcome := GameOutcome.in_progress, draw_reason := DrawReason.no_reason }

/-- The deploy rows of the `get_valid_actions_mask` loops: unit types 1..5
(index `i+1`), respecting the per-type cap, over empty home-row columns. -/
def deploy_bit (s : GameState) (player_id a : Nat) : Bool :=
  (List.range 5).any fun i =>
    let t := unitTypeOfNat (i + 1)
    if MAX_DEPLOYMENTS_PER_TYPE ≤ (s.players player_id).deployment_counts t then false
    else
      (List.range 5).any fun col =>
        (s.grid (deploy_row player_id, col)).isNone && (a == encode_deploy (i + 1) col)

/-- The move rows of `get_valid_actions_mask`: every friendly unit that has
not acted, against every `_can_move` target. -/
def move_bit (s : GameState) (player_id a : Nat) : Bool :=
  cells.any fun rc =>
    match s.grid rc with
    | some u =>
      u.owner_id == player_id && !u.acted_this_turn &&
        (cells.any fun tgt => can_move s u rc tgt && (a == encode_move rc tgt))
    | none => false

/-- The attack rows of `get_valid_actions_mask`: every friendly unit that
has not acted, against every enemy-occupied `_can_attack` target. -/
def attack_bit (s : GameState) (player_id a : Nat) : Bool :=
  cells.any fun rc =>
    match s.grid rc with
    | some u =>
      u.owner_id == player_id && !u.acted_this_turn &&
        (cells.any fun tgt =>
          match s.grid tgt with
          | some tu =>
            !(tu.owner_id == player_id) && can_attack s u rc tgt tu &&
              (a == encode_attack rc tgt)
          | none => false)
    | none => false

/-- The rotate rows of `get_valid_actions_mask`: every friendly unit that
has not acted, against every `_can_rotate` target. -/
def rotate_bit (s : GameState) (player_id a : Nat) : Bool :=
  cells.any fun rc =>
    match s.grid rc with
    | some u =>
      u.owner_id == player_id && !u.acted_this_turn &&
        (cells.any fun tgt => can_rotate s u rc tgt player_id && (a == encode_rotate rc tgt))
    | none => false

/-- `get_valid_actions_mask`, as the characteristic function of the set of
indices the source loops switch on: all-zero before `reset` or out of
turn; deploys gated by actions and deployments remaining; moves, attacks
and rotates gated by actions remaining; `END_TURN` always on. -/
def get_valid_actions_mask (env : Env) (player_id a : Nat) : Bool :=
  match env.state with
  | none => false
  | some s =>
    if ¬ player_id = s.current_player then false
    else
      let player := s.players player_id
      let has_actions : Bool := 0 < player.actions_remaining
      let has_deployments : Bool := 0 < player.deployments_remaining
      (has_actions && has_deployments && deploy_bit s player_id a) ||
      (has_actions && move_bit s player_id a) ||
      (has_actions && attack_bit s player_id a) ||
      (has_actions && rotate_bit s player_id a) ||
      (a == ACTION_SPACE_SIZE - 1)

/-- Whether `step` accepts the action: it returns normally and the info
dict carries no error (the action was applied rather than rejected). -/
def step_accepts (env : Env) (action player_id : Nat) : Bool :=
  match step env action player_id with
  | Except.ok r => r.error.isNone
  | Except.error _ => false

/-- The game state held by the engine after a `step` call that returned
normally. -/
def state_after (env : Env) (action player_id : Nat) : Option GameState :=
  match step env action player_id with
  | Except.ok r => r.env.state
  | Except.error _ => none

/-- The engine states reachable through the public interface: a fresh
engine after `reset`, every normal return of `step`, and `reset` called
again at any point. -/
inductive Reachable : Env → Prop where
  | reset_base (r : Rewards) (tm : Bool) : Reachable (reset (init_env r tm))
  | step_ok (e : Env) (action player_id : Nat) (res : StepResult) :
      Reachable e → step e action player_id = Except.ok res → Reachable res.env
  | reset_again {e : Env} : Reachable e → Reachable (reset e)

/-- A freshly reset engine with the default configuration. -/
def env0 : Env := reset (init_env default_rewards true)

example : get_valid_actions_mask env0 0 0 = true := by decide

example : get_valid_actions_mask env0 0 5 = false := by decide

example : step_accepts env0 0 0 = true := by decide

example : step_accepts env0 5 0 = true := by decide

example : (state_after env0 0 0).map GameState.turn_number = some 2 := by decide

example : step_accepts env0 2026 0 = true := by decide

/-- C5 counterexample: the codec is not a bijection — the distinct indices
0 and 5 (both in range) decode to the same structured action, deploying a
swordsman in column 0, because `_parse_action` reads the column as
`action % 5` while `_encode_deploy` spaces unit types 25 apart. -/
theorem c5_counterexample :
    parse_action 0 = parse_action 5 ∧ ¬ (0 : Nat) = 5 ∧ 5 < ACTION_SPACE_SIZE := by
  decide

/-- C5 (amended): decoding is total on `[0, ACTION_SPACE_SIZE)` (it is a
total function into structured actions), and encoding any structured
action then decoding returns the same action; but decoding is not
injective — within each 25-index deploy row only the first 5 indices are
canonical encodings, and the rest duplicate them — so the codec is not a
bijection. -/
theorem c5_codec_roundtrip_not_injective :
    (∀ t, t < 7 → 1 ≤ t → ∀ c, c < 5 →
      parse_action (encode_deploy t c) = GameAction.deploy (unitTypeOfNat t) c ∧
      encode_deploy t c < ACTION_SPACE_SIZE) ∧
    (∀ sr, sr < 5 → ∀ sc, sc < 5 → ∀ tr, tr < 5 → ∀ tc, tc < 5 →
      parse_action (encode_move (sr, sc) (tr, tc)) = GameAction.move (sr, sc) (tr, tc) ∧
      parse_action (encode_attack (sr, sc) (tr, tc)) = GameAction.attack (sr, sc) (tr, tc) ∧
      parse_action (encode_rotate (sr, sc) (tr, tc)) = GameAction.rotate (sr, sc) (tr, tc) ∧
      encode_rotate (sr, sc) (tr, tc) < ACTION_SPACE_SIZE) ∧
    parse_action (ACTION_SPACE_SIZE - 1) = GameAction.end_turn ∧
    (parse_action 0 = parse_action 5 ∧ ¬ (0 : Nat) = 5) := by
  refine ⟨by decide, by decide, by decide, by decide, by decide⟩

/-- C5 witness: the round-trip part of the amended codec theorem evaluated
on the concrete attack from (1,2) to (3,4). -/
theorem c5_witness :
    parse_action (encode_attack (1, 2) (3, 4)) = GameAction.attack (1, 2) (3, 4) :=
  (c5_codec_roundtrip_not_injective.2.1 1 (by decide) 2 (by decide) 3 (by decide) 4
    (by decide)).2.1

/-- C3 counterexample state: player 1 occupies both outer control points
(2,0) and (2,4) but not the center; player 0 is about to end their turn. -/
def c3_state : GameState :=
  { grid := fun p =>
      if p = (2, 0) then
        some { id := 1, owner_id := 1, unit_type := UnitType.swordsman,
               position := (2, 0), acted_this_turn := false }
      else if p = (2, 4) then
        some { id := 2, owner_id := 1, unit_type := UnitType.archer,
               position := (2, 4), acted_this_turn := false }
      else none,
    current_player := 0,
    turn_number := 5,
    players := fun i =>
      if i = 0 then
        { id := 0, actions_remaining := 0, deployments_remaining := 10,
          deployment_counts := fun _ => 0 }
      else
        { id := 1, actions_remaining := 0, deployments_remaining := 10,
          deployment_counts := fun _ => 0 },
    free_deployments_remaining := 0,
    has_acted_this_turn := true }

/-- C3 counterexample: when the incoming player holds both outer control
points but not the center, `_end_turn` gives them `actions_remaining = 1`,
not the `1 + 1 = 2` the claim's both-outer action bonus requires (the
both-outer bonus in the code is a deployment, not an action). -/
theorem c3_counterexample :
    controls_position c3_state 1 (2, 0) = true ∧
    controls_position c3_state 1 (2, 4) = true ∧
    controls_position c3_state 1 (2, 2) = false ∧
    ((end_turn c3_state ⟨0, 0⟩).1.players 1).actions_remaining = 1 ∧
    ¬ ((1 : Int) = 1 + 1) := by
  decide

/-- C3 (amended): on end-turn the incoming player's `actions_remaining` is
set to a base of 1 plus a bonus of 1 for holding the center control point
only; holding both outer control points grants +1 `deployments_remaining`
(not an extra action); and the free-deployment flag is set iff at least
one outer control point is held. -/
theorem c3_end_turn_bonuses (s : GameState) (dc : DrawCounters) :
    (((end_turn s dc).1.players (1 - s.current_player)).actions_remaining =
      1 + (if controls_position s (1 - s.current_player) (2, 2) = true then 1 else 0)) ∧
    (((end_turn s dc).1.players (1 - s.current_player)).deployments_remaining =
      (s.players (1 - s.current_player)).deployments_remaining +
        (if controls_position s (1 - s.current_player) (2, 0) = true ∧
            controls_position s (1 - s.current_player) (2, 4) = true then 1 else 0)) ∧
    ((end_turn s dc).1.free_deployments_remaining =
      if controls_position s (1 - s.current_player) (2, 0) = true ∨
          controls_position s (1 - s.current_player) (2, 4) = true then 1 else 0) := by
  cases h0 : controls_position s (1 - s.current_player) (2, 0) <;>
    cases h2 : controls_position s (1 - s.current_player) (2, 2) <;>
      cases h4 : controls_position s (1 - s.current_player) (2, 4) <;>
        simp [end_turn, update_players, OUTSIDE_POINTS, h0, h2, h4]

lemma end_turn_grid_none (s : GameState) (dc : DrawCounters) (q : Pos) :
    (end_turn s dc).1.grid q = none ↔ s.grid q = none := by
  simp [end_turn, Option.map_eq_none']

lemma update_grid_same (g : Pos → Option Unit) (p : Pos) (v : Option Unit) :
    update_grid g p v p = v := by
  simp [update_grid]

lemma update_grid_other (g : Pos → Option Unit) (p q : Pos) (v : Option Unit)
    (h : ¬ q = p) : update_grid g p v q = g q := by
  simp [update_grid, h]

/-- C2 (amended): for every attack `_apply_attack` accepts, at orthogonal
adjacency (melee) the symmetric rule of the claim holds — the attacker is
removed iff the defender's melee table lists the attacker's type, and the
defender is removed iff the attacker's melee table lists the defender's
type; but at any other accepted geometry the attack is ranged and only the
attacker's ranged table is consulted: the defender is removed iff listed
there and the attacker is never removed. -/
theorem c2_attack_resolution (s : GameState) (dc : DrawCounters) (uc : Nat)
    (source target : Pos) (player_id : Nat) (attacker defender : Unit) (a2 : ApplyState)
    (hatt : s.grid source = some attacker) (hdef : s.grid target = some defender)
    (h : apply_attack ⟨s, dc, uc⟩ source target player_id = Except.ok a2) :
    (abs_diff source.1 target.1 + abs_diff source.2 target.2 = 1 →
      (a2.s.grid source = none ↔ attacker.unit_type ∈ melee_beats defender.unit_type) ∧
      (a2.s.grid target = none ↔ defender.unit_type ∈ melee_beats attacker.unit_type)) ∧
    (¬ (abs_diff source.1 target.1 + abs_diff source.2 target.2 = 1) →
      (¬ a2.s.grid source = none) ∧
      (a2.s.grid target = none ↔ defender.unit_type ∈ ranged_beats attacker.unit_type)) := by
  simp only [apply_attack, hatt, hdef] at h
  by_cases hown : attacker.owner_id = player_id
  case neg => simp [hown] at h
  by_cases hacted : attacker.acted_this_turn = true
  case pos => simp [hown, hacted] at h
  by_cases hdo : defender.owner_id = player_id
  case pos => simp [hown, hacted, hdo] at h
  by_cases hca : can_attack s attacker source target defender = true
  case neg => simp [hown, hacted, hdo, hca] at h
  have hne : ¬ source = target := by
    intro he
    rw [he, hdef] at hatt
    cases hatt
    exact hdo hown
  have hne' : ¬ target = source := fun he => hne he.symm
  have hdistle : get_distance source target ≤ attack_range attacker.unit_type := by
    unfold can_attack at hca
    by_cases hgt : attack_range attacker.unit_type < get_distance source target
    · simp [hgt] at hca
    · omega
  have harch :
      ¬ (abs_diff source.1 target.1 + abs_diff source.2 target.2 = 1) →
        attacker.unit_type = UnitType.archer ∨ attacker.unit_type = UnitType.spearman := by
    intro hml
    by_contra hno
    push_neg at hno
    have hr1 : attack_range attacker.unit_type = 1 := by
      cases hu : attacker.unit_type <;> simp [attack_range] <;>
        simp [hu] at hno
    rw [hr1] at hdistle
    unfold get_distance at hdistle
    by_cases hdiag : abs_diff source.2 target.2 = 1 ∧ abs_diff source.1 target.1 = 1
    · simp [hdiag] at hdistle
    · simp only [hdiag, if_false] at hdistle
      have h0 : abs_diff source.2 target.2 + abs_diff source.1 target.1 = 0 := by omega
      have hs1 : source.1 = target.1 := by
        have := h0
        unfold abs_diff at this
        split_ifs at this <;> omega
      have hs2 : source.2 = target.2 := by
        unfold abs_diff at h0
        split_ifs at h0 <;> omega
      exact hne (Prod.ext hs1 hs2)
  have hmelee_tbl :
      abs_diff source.1 target.1 + abs_diff source.2 target.2 = 1 →
        defender.unit_type ∈ melee_beats attacker.unit_type ∨
          attacker.unit_type ∈ melee_beats defender.unit_type := by
    intro hml
    unfold can_attack at hca
    have hng : ¬ attack_range attacker.unit_type < get_distance source target := by omega
    simp only [hng, if_false, hml] at hca
    simpa using hca
  by_cases hml : abs_diff source.1 target.1 + abs_diff source.2 target.2 = 1
  · have hawdw := hmelee_tbl hml
    by_cases haw : defender.unit_type ∈ melee_beats attacker.unit_type <;>
      by_cases hdw : attacker.unit_type ∈ melee_beats defender.unit_type
    on_goal 4 => exact hawdw.elim (fun hx => absurd hx haw) fun hx => absurd hx hdw
    all_goals
      simp only [hown, hacted, hdo, hca] at h
      simp [attack_removals, hml, haw, hdw] at h
      split_ifs at h with hend
      all_goals
        obtain rfl := Except.ok.inj h
        refine ⟨fun _ => ⟨?_, ?_⟩, fun hc => absurd hml hc⟩ <;>
          simp [end_turn_grid_none, update_grid, hne, hne', hatt, hdef, haw, hdw]
  · by_cases hrg : defender.unit_type ∈ ranged_beats attacker.unit_type
    all_goals
      simp only [hown, hacted, hdo, hca] at h
      rcases harch hml with ht | ht
      all_goals
        rw [ht] at hrg
        simp [attack_removals, hml, ht, hrg] at h
        split_ifs at h with hend
        all_goals
          obtain rfl := Except.ok.inj h
          refine ⟨fun hc => absurd hc hml, fun _ => ⟨?_, ?_⟩⟩ <;>
            simp [end_turn_grid_none, update_grid, hne, hne', hatt, hdef, ht, hrg]

/-- C2 counterexample board: a player-0 spearman at (2,0) attacking a
player-1 archer at (2,2), a ranged attack at distance 2. -/
def c2_state : GameState :=
  { grid := fun p =>
      if p = (2, 0) then
        some { id := 1, owner_id := 0, unit_type := UnitType.spearman,
               position := (2, 0), acted_this_turn := false }
      else if p = (2, 2) then
        some { id := 2, owner_id := 1, unit_type := UnitType.archer,
               position := (2, 2), acted_this_turn := false }
      else none,
    current_player := 0,
    turn_number := 5,
    players := fun i =>
      if i = 0 then
        { id := 0, actions_remaining := 2, deployments_remaining := 10,
          deployment_counts := fun _ => 0 }
      else
        { id := 1, actions_remaining := 0, deployments_remaining := 10,
          deployment_counts := fun _ => 0 },
    free_deployments_remaining := 0,
    has_acted_this_turn := false }

/-- C2 counterexample: a spearman's ranged attack on an archer is accepted,
and the archer's ranged table lists the spearman (so the claim's
`defenderWins` is true and the attacker should be removed), yet the code
leaves the attacker on the board — ranged combat never removes the
attacker. -/
theorem c2_counterexample :
    UnitType.spearman ∈ ranged_beats UnitType.archer ∧
    ((apply_attack ⟨c2_state, ⟨0, 0⟩, 0⟩ (2, 0) (2, 2) 0).toOption.map
        fun a2 => ((a2.s.grid (2, 0)).isSome, (a2.s.grid (2, 2)).isNone)) =
      some (true, true) := by
  decide

/-- C2 witness board: a player-0 swordsman at (2,1) attacking a player-1
archer at (2,2), a melee attack. -/
def c2m_state : GameState :=
  { grid := fun p =>
      if p = (2, 1) then
        some { id := 1, owner_id := 0, unit_type := UnitType.swordsman,
               position := (2, 1), acted_this_turn := false }
      else if p = (2, 2) then
        some { id := 2, owner_id := 1, unit_type := UnitType.archer,
               position := (2, 2), acted_this_turn := false }
      else none,
    current_player := 0,
    turn_number := 5,
    players := fun i =>
      if i = 0 then
        { id := 0, actions_remaining := 2, deployments_remaining := 10,
          deployment_counts := fun _ => 0 }
      else
        { id := 1, actions_remaining := 0, deployments_remaining := 10,
          deployment_counts := fun _ => 0 },
    free_deployments_remaining := 0,
    has_acted_this_turn := false }

/-- The swordsman attacking in the C2 witness board. -/
def c2m_attacker : Unit :=
  { id := 1, owner_id := 0, unit_type := UnitType.swordsman,
    position := (2, 1), acted_this_turn := false }

/-- The archer defending in the C2 witness board. -/
def c2m_defender : Unit :=
  { id := 2, owner_id := 1, unit_type := UnitType.archer,
    position := (2, 2), acted_this_turn := false }

/-- The apply-state produced by the C2 witness attack. -/
def c2m_result : ApplyState :=
  (apply_attack ⟨c2m_state, ⟨0, 0⟩, 0⟩ (2, 1) (2, 2) 0).toOption.getD
    ⟨c2m_state, ⟨0, 0⟩, 0⟩

/-- C2 witness: the amended resolution theorem applied to the concrete
melee attack of a swordsman on an archer — the archer is removed and the
swordsman survives. -/
theorem c2_witness :
    c2m_result.s.grid (2, 2) = none ∧ ¬ c2m_result.s.grid (2, 1) = none := by
  have h := c2_attack_resolution c2m_state ⟨0, 0⟩ 0 (2, 1) (2, 2) 0 c2m_attacker
    c2m_defender c2m_result (by decide) (by decide) rfl
  have h2 := h.1 (by decide)
  refine ⟨h2.2.mpr (by decide), fun hn => ?_⟩
  have hmem := h2.1.mp hn
  revert hmem
  decide

lemma step_success_error (env1 : Env) (s : GameState) (player_id : Nat) (a2 : ApplyState) :
    (step_success env1 s player_id a2).error = none := by
  simp only [step_success]
  split
  · rfl
  · split
    · rfl
    · rfl

lemma step_success_state (env1 : Env) (s : GameState) (player_id : Nat) (a2 : ApplyState) :
    (step_success env1 s player_id a2).env.state = some a2.s := by
  simp only [step_success]
  split
  · rfl
  · split
    · rfl
    · rfl

/-- C6: whenever `step` rejects an action — out of turn or failing a
legality check — it returns the configured invalid-action penalty with
`done = false`, and the engine's game state is exactly the state it held
before the call. -/
theorem c6_rejection_no_mutation (e : Env) (action player_id : Nat) (r : StepResult)
    (msg : String) (hstep : step e action player_id = Except.ok r)
    (herr : r.error = some msg) :
    r.env.state = e.state ∧ r.reward = e.rewards.invalid_action_penalty ∧
      r.done = false := by
  unfold step at hstep
  split at hstep
  · exact absurd hstep (by simp)
  · rename_i s hs
    simp only [] at hstep
    by_cases hturn : player_id = s.current_player
    · rw [if_neg (by simpa using hturn)] at hstep
      split at hstep
      · obtain rfl := (Except.ok.inj hstep).symm
        exact ⟨by rw [hs], rfl, rfl⟩
      · obtain rfl := (Except.ok.inj hstep).symm
        rw [step_success_error] at herr
        cases herr
    · rw [if_pos (by simpa using hturn)] at hstep
      obtain rfl := (Except.ok.inj hstep).symm
      exact ⟨rfl, rfl, rfl⟩

/-- The step result of the C6 witness call (player 1 acting on player 0's
turn in a fresh game). -/
def c6_result : StepResult :=
  (step env0 0 1).toOption.getD
    { env := env0, reward := 0, done := false, error := none, winner := none }

/-- C6 witness: the rejection theorem applied to the concrete out-of-turn
call `step(0, player=1)` on a fresh engine. -/
theorem c6_witness :
    c6_result.env.state = env0.state ∧
      c6_result.reward = env0.rewards.invalid_action_penalty ∧
      c6_result.done = false :=
  c6_rejection_no_mutation env0 0 1 c6_result "Not your turn" rfl rfl

/-- C4 counterexample: the out-of-range action index 2026 is not rejected
as fatal — it decodes to `END_TURN`, `step` accepts it (no error in the
info dict), and the game state mutates (the turn number advances from 1 to
2). -/
theorem c4_counterexample :
    ¬ 2026 < ACTION_SPACE_SIZE ∧ step_accepts env0 2026 0 = true ∧
      (state_after env0 2026 0).map GameState.turn_number = some 2 := by
  decide

/-- C4 (amended): calling `step` before `reset` is the only misuse that
fails loudly (a `RuntimeError`); an action index outside
`[0, ACTION_SPACE_SIZE)` falls through `_parse_action` to `END_TURN` and
is handled as a normal action; and reaching a terminal state does not
gate `step` — acceptance never consults `game_outcome`/`draw_reason`, so
post-terminal calls continue as normal game actions. -/
theorem c4_engine_misuse :
    (∀ e : Env, ∀ action player_id : Nat, e.state = none →
      step e action player_id =
        Except.error "Environment not initialized. Call reset() first.") ∧
    (∀ action : Nat, ACTION_SPACE_SIZE ≤ action →
      parse_action action = GameAction.end_turn) ∧
    (∀ e : Env, ∀ action player_id : Nat, ∀ g : GameOutcome, ∀ dr : DrawReason,
      step_accepts { e with game_outcome := g, draw_reason := dr } action player_id =
        step_accepts e action player_id) := by
  refine ⟨?_, ?_, ?_⟩
  · intro e action player_id he
    unfold step
    rw [he]
  · intro action ha
    have ha' : 2026 ≤ action := by
      simpa [ACTION_SPACE_SIZE, DEPLOY_ACTIONS, MOVE_ACTIONS, ATTACK_ACTIONS,
        ROTATE_ACTIONS, END_TURN_ACTIONS] using ha
    simp only [parse_action, DEPLOY_ACTIONS, MOVE_ACTIONS, ATTACK_ACTIONS, ROTATE_ACTIONS]
    rw [if_neg (by omega), if_neg (by omega), if_neg (by omega), if_neg (by omega)]
  · intro e action player_id g dr
    unfold step_accepts step
    rcases he : e.state with _ | s <;> simp only [he]
    by_cases hturn : player_id = s.current_player
    · rw [if_neg (by simpa using hturn), if_neg (by simpa using hturn)]
      rcases happ : apply_action
          ⟨s, ⟨e.turns_since_last_capture, e.turns_since_last_unit_death⟩, e.unit_counter⟩
          (parse_action action) player_id with msg2 | a2
      · rfl
      · simp [step_success_error]
    · rw [if_pos (by simpa using hturn), if_pos (by simpa using hturn)]

/-- C4 witness: the amended misuse theorem at concrete inputs — a
never-reset engine raises on any call, and the out-of-range index 5000
decodes to `END_TURN`. -/
theorem c4_witness :
    step (init_env default_rewards true) 3 7 =
      Except.error "Environment not initialized. Call reset() first." ∧
    parse_action 5000 = GameAction.end_turn :=
  ⟨c4_engine_misuse.1 (init_env default_rewards true) 3 7 rfl,
   c4_engine_misuse.2.1 5000 (by decide)⟩

lemma step_success_winner (env1 : Env) (s : GameState) (player_id : Nat) (a2 : ApplyState)
    (w : Nat) (hw : check_winner a2.s = some w) :
    (step_success env1 s player_id a2).done = true ∧
      (step_success env1 s player_id a2).winner = some w := by
  simp only [step_success, hw]
  exact ⟨trivial, trivial⟩

lemma step_success_max_turns (env1 : Env) (s : GameState) (player_id : Nat) (a2 : ApplyState)
    (hw : check_winner a2.s = none) (hmax : MAX_TURN_LIMIT ≤ a2.s.turn_number) :
    (step_success env1 s player_id a2).done = true ∧
      (step_success env1 s player_id a2).env.draw_reason = DrawReason.max_turns := by
  simp only [step_success, hw, check_draw_conditions, if_pos hmax]
  exact ⟨trivial, trivial⟩

/-- C7: after a successfully applied action, the win check runs first (a
winner always ends the game no matter which draw conditions also hold);
with no winner, a turn number at the limit is always reported as a
`MAX_TURNS` draw no matter the hash counts or no-progress counters; below
the turn limit the repeated-state check runs before — and preempts — the
no-progress check, which only fires when the first two fail. -/
theorem c7_win_then_draw_priority (e : Env) (action player_id : Nat) (r : StepResult)
    (s2 : GameState) (hstep : step e action player_id = Except.ok r)
    (herr : r.error = none) (hs2 : r.env.state = some s2) :
    (∀ w, check_winner s2 = some w → r.done = true ∧ r.winner = some w) ∧
    (check_winner s2 = none → MAX_TURN_LIMIT ≤ s2.turn_number →
      r.done = true ∧ r.env.draw_reason = DrawReason.max_turns) ∧
    (∀ s3 : GameState, ∀ hc : StateHash → Nat, ∀ dc : DrawCounters,
      s3.turn_number < MAX_TURN_LIMIT →
      REPEATED_STATE_LIMIT ≤ hc (compute_state_hash s3) + 1 →
      (check_draw_conditions s3 hc dc).1 = (true, DrawReason.repeated_state)) ∧
    (∀ s3 : GameState, ∀ hc : StateHash → Nat, ∀ dc : DrawCounters,
      s3.turn_number < MAX_TURN_LIMIT →
      hc (compute_state_hash s3) + 1 < REPEATED_STATE_LIMIT →
      NO_PROGRESS_TURN_LIMIT ≤ dc.turns_since_last_capture →
      NO_PROGRESS_TURN_LIMIT ≤ dc.turns_since_last_unit_death →
      (check_draw_conditions s3 hc dc).1 = (true, DrawReason.no_progress)) := by
  have hdraw3 : ∀ s3 : GameState, ∀ hc : StateHash → Nat, ∀ dc : DrawCounters,
      s3.turn_number < MAX_TURN_LIMIT →
      REPEATED_STATE_LIMIT ≤ hc (compute_state_hash s3) + 1 →
      (check_draw_conditions s3 hc dc).1 = (true, DrawReason.repeated_state) := by
    intro s3 hc dc hlt hrep
    have hnot : ¬ MAX_TURN_LIMIT ≤ s3.turn_number := by omega
    simp [check_draw_conditions, hnot, hrep]
  have hdraw4 : ∀ s3 : GameState, ∀ hc : StateHash → Nat, ∀ dc : DrawCounters,
      s3.turn_number < MAX_TURN_LIMIT →
      hc (compute_state_hash s3) + 1 < REPEATED_STATE_LIMIT →
      NO_PROGRESS_TURN_LIMIT ≤ dc.turns_since_last_capture →
      NO_PROGRESS_TURN_LIMIT ≤ dc.turns_since_last_unit_death →
      (check_draw_conditions s3 hc dc).1 = (true, DrawReason.no_progress) := by
    intro s3 hc dc hlt hrep hcap hdeath
    have hnot : ¬ MAX_TURN_LIMIT ≤ s3.turn_number := by omega
    have hnrep : ¬ REPEATED_STATE_LIMIT ≤ hc (compute_state_hash s3) + 1 := by omega
    simp [check_draw_conditions, hnot, hnrep, hcap, hdeath]
  unfold step at hstep
  split at hstep
  · exact absurd hstep (by simp)
  · rename_i s hs
    simp only [] at hstep
    by_cases hturn : player_id = s.current_player
    case neg =>
      rw [if_pos (by simpa using hturn)] at hstep
      obtain rfl := (Except.ok.inj hstep).symm
      cases herr
    rw [if_neg (by simpa using hturn)] at hstep
    split at hstep
    · obtain rfl := (Except.ok.inj hstep).symm
      cases herr
    · rename_i a2 happ
      obtain rfl := (Except.ok.inj hstep).symm
      rw [step_success_state] at hs2
      obtain rfl := (Option.some.inj hs2).symm
      exact ⟨fun w hw => step_success_winner _ _ _ _ w hw,
        fun hw hmax => step_success_max_turns _ _ _ _ hw hmax, hdraw3, hdraw4⟩

/-- The step result of the C7 witness call (the first deploy of a fresh
game). -/
def c7_result : StepResult :=
  (step env0 0 0).toOption.getD
    { env := env0, reward := 0, done := false, error := none, winner := none }

/-- The game state after the C7 witness call. -/
def c7_state : GameState := (state_after env0 0 0).getD init_state

/-- C7 witness: the priority theorem applied to a concrete step, then to a
concrete state that satisfies both the repeated-state and the no-progress
conditions — it is reported as `REPEATED_STATE`, confirming the fixed
order. -/
theorem c7_witness :
    (check_draw_conditions init_state (fun _ => 9) ⟨100, 100⟩).1 =
      (true, DrawReason.repeated_state) :=
  (c7_win_then_draw_priority env0 0 0 c7_result c7_state rfl rfl rfl).2.2.1
    init_state (fun _ => 9) ⟨100, 100⟩ (by decide) (by decide)

/-- The state invariant maintained by every engine operation: per-type
deployment counts capped at `MAX_DEPLOYMENTS_PER_TYPE`, non-negative
action budgets, and every unit's `position` field equal to the grid cell
holding it. -/
def StateInv (s : GameState) : Prop :=
  (∀ pid : Nat, ∀ t : UnitType,
    (s.players pid).deployment_counts t ≤ MAX_DEPLOYMENTS_PER_TYPE) ∧
  (∀ pid : Nat, 0 ≤ (s.players pid).actions_remaining) ∧
  (∀ p : Pos, ∀ u : Unit, s.grid p = some u → u.position = p)

lemma end_turn_players_other (s : GameState) (dc : DrawCounters) (pid : Nat)
    (h : ¬ pid = 1 - s.current_player) :
    (end_turn s dc).1.players pid = s.players pid := by
  simp [end_turn, update_players, h]

lemma end_turn_turn_number (s : GameState) (dc : DrawCounters) :
    (end_turn s dc).1.turn_number = s.turn_number + 1 := rfl

lemma end_turn_grid (s : GameState) (dc : DrawCounters) (q : Pos) :
    (end_turn s dc).1.grid q =
      (s.grid q).map fun u => { u with acted_this_turn := false } := rfl

lemma end_turn_inv (s : GameState) (dc : DrawCounters) (h : StateInv s) :
    StateInv (end_turn s dc).1 := by
  obtain ⟨hcap, hact, hpos⟩ := h
  refine ⟨?_, ?_, ?_⟩
  · intro pid t
    by_cases hp : pid = 1 - s.current_player
    · subst hp
      simpa [end_turn, update_players] using hcap (1 - s.current_player) t
    · rw [end_turn_players_other s dc pid hp]
      exact hcap pid t
  · intro pid
    by_cases hp : pid = 1 - s.current_player
    · subst hp
      simp only [end_turn, update_players, if_pos rfl]
      split_ifs <;> norm_num
    · rw [end_turn_players_other s dc pid hp]
      exact hact pid
  · intro p u hu
    rw [end_turn_grid] at hu
    rcases hmap : s.grid p with _ | v
    · rw [hmap] at hu; cases hu
    · rw [hmap] at hu
      obtain rfl := (Option.some.inj hu).symm
      exact hpos p v hmap

lemma one_sub_ne (pid : Nat) : ¬ (pid = 1 - pid) := by omega

lemma update_players_same (ps : Nat → Player) (i : Nat) (p : Player) :
    update_players ps i p i = p := by
  simp [update_players]

lemma update_players_other (ps : Nat → Player) (i j : Nat) (p : Player) (h : ¬ j = i) :
    update_players ps i p j = ps j := by
  simp [update_players, h]

/-- The state every `_apply_*` mutation builds before its auto-end-turn
check: new grid `g2`, the acting player's record replaced by `p2`, and the
acted-this-turn flag set. -/
abbrev mutated (s : GameState) (g2 : Pos → Option Unit) (pid : Nat) (p2 : Player) : GameState :=
  { s with grid := g2, players := update_players s.players pid p2,
           has_acted_this_turn := true }

/-- The common tail of the four `_apply_*` mutations: the mutated state
followed by the auto-end-turn when the action budget is exhausted. -/
lemma tail_ok (s : GameState) (dc : DrawCounters) (uc : Nat) (pid : Nat)
    (g2 : Pos → Option Unit) (p2 : Player) (a2 : ApplyState)
    (hcur : pid = s.current_player)
    (hinv2 : StateInv (mutated s g2 pid p2))
    (hok : (if p2.actions_remaining ≤ 0 then
          Except.ok
            (⟨(end_turn (mutated s g2 pid p2) dc).1,
              (end_turn (mutated s g2 pid p2) dc).2, uc⟩ : ApplyState)
        else
          Except.ok (⟨mutated s g2 pid p2, dc, uc⟩ : ApplyState)) =
        (Except.ok a2 : Except String ApplyState)) :
    StateInv a2.s ∧
    (a2.s.players pid).actions_remaining = p2.actions_remaining ∧
    (p2.actions_remaining ≤ 0 → a2.s.turn_number = s.turn_number + 1) ∧
    (0 < p2.actions_remaining → a2.s.turn_number = s.turn_number) := by
  split_ifs at hok with hend
  · obtain rfl := (Except.ok.inj hok).symm
    refine ⟨end_turn_inv (mutated s g2 pid p2) dc hinv2, ?_, fun _ => ?_,
      fun hgt => absurd hgt (by omega)⟩
    · rw [end_turn_players_other (mutated s g2 pid p2) dc pid (by simp [mutated, hcur.symm]; omega)]
      exact congrArg Player.actions_remaining (update_players_same s.players pid p2)
    · rw [end_turn_turn_number]
  · obtain rfl := (Except.ok.inj hok).symm
    refine ⟨hinv2, ?_, fun hle => absurd hle hend, fun _ => rfl⟩
    exact congrArg Player.actions_remaining (update_players_same s.players pid p2)

/-- `_apply_deploy` on success: the invariant is preserved, the acting
player's budget drops by one, and the auto-end-turn fires exactly when it
reaches zero. -/
lemma apply_deploy_ok (a : ApplyState) (t : UnitType) (col pid : Nat) (a2 : ApplyState)
    (hcur : pid = a.s.current_player) (hact0 : 0 < (a.s.players pid).actions_remaining)
    (hinv : StateInv a.s)
    (hok : apply_deploy a t col pid = Except.ok a2) :
    StateInv a2.s ∧
    (a2.s.players pid).actions_remaining = (a.s.players pid).actions_remaining - 1 ∧
    ((a.s.players pid).actions_remaining - 1 ≤ 0 →
      a2.s.turn_number = a.s.turn_number + 1) ∧
    (0 < (a.s.players pid).actions_remaining - 1 →
      a2.s.turn_number = a.s.turn_number) := by
  obtain ⟨hcap, hact, hpos⟩ := hinv
  simp only [apply_deploy] at hok
  split at hok
  · exact absurd hok (by simp)
  split at hok
  · exact absurd hok (by simp)
  rename_i hgrid
  split at hok
  · exact absurd hok (by simp)
  rename_i hcnt
  refine tail_ok a.s a.dc (a.unit_counter + 1) pid
    (update_grid a.s.grid (deploy_row pid, col)
      (some { id := a.unit_counter + 1, owner_id := pid, unit_type := t,
              position := (deploy_row pid, col), acted_this_turn := true }))
    { a.s.players pid with
      actions_remaining := (a.s.players pid).actions_remaining - 1,
      deployments_remaining := (a.s.players pid).deployments_remaining - 1,
      deployment_counts := fun t2 =>
        if t2 = t then (a.s.players pid).deployment_counts t + 1
        else (a.s.players pid).deployment_counts t2 }
    a2 hcur ⟨?_, ?_, ?_⟩ hok
  · intro pid2 t2
    simp only [mutated]
    by_cases hp : pid2 = pid
    · subst hp
      rw [update_players_same]
      simp only []
      split_ifs with ht
      · simp only [MAX_DEPLOYMENTS_PER_TYPE] at hcnt ⊢
        omega
      · exact hcap pid2 t2
    · rw [update_players_other _ _ _ _ hp]
      exact hcap pid2 t2
  · intro pid2
    simp only [mutated]
    by_cases hp : pid2 = pid
    · subst hp
      rw [update_players_same]
      simp only []
      omega
    · rw [update_players_other _ _ _ _ hp]
      exact hact pid2
  · intro p u hu
    simp only [mutated, update_grid] at hu
    split_ifs at hu with hq
    · subst hq
      obtain rfl := (Option.some.inj hu).symm
      rfl
    · exact hpos p u hu

/-- The mutated-but-not-yet-end-turned state of an `_apply_*` helper keeps
the invariant when the new player record and grid do. -/
lemma mutated_inv (s : GameState) (pid : Nat) (g2 : Pos → Option Unit) (p2 : Player)
    (hcap2 : ∀ t : UnitType, p2.deployment_counts t ≤ MAX_DEPLOYMENTS_PER_TYPE)
    (hact2 : 0 ≤ p2.actions_remaining)
    (hg : ∀ p : Pos, ∀ v : Unit, g2 p = some v → v.position = p)
    (hinv : StateInv s) :
    StateInv
      { s with grid := g2, players := update_players s.players pid p2,
               has_acted_this_turn := true } := by
  obtain ⟨hcap, hact, hpos⟩ := hinv
  refine ⟨?_, ?_, ?_⟩
  · intro pid2 t2
    simp only []
    by_cases hp : pid2 = pid
    · subst hp
      rw [update_players_same]
      exact hcap2 t2
    · rw [update_players_other _ _ _ _ hp]
      exact hcap pid2 t2
  · intro pid2
    simp only []
    by_cases hp : pid2 = pid
    · subst hp
      rw [update_players_same]
      exact hact2
    · rw [update_players_other _ _ _ _ hp]
      exact hact pid2
  · exact hg

/-- `_apply_move` on success: the invariant is preserved, the acting
player's budget drops by one, and the auto-end-turn fires exactly when it
reaches zero. -/
lemma apply_move_ok (a : ApplyState) (source target : Pos) (pid : Nat) (a2 : ApplyState)
    (hcur : pid = a.s.current_player) (hact0 : 0 < (a.s.players pid).actions_remaining)
    (hinv : StateInv a.s)
    (hok : apply_move a source target pid = Except.ok a2) :
    StateInv a2.s ∧
    (a2.s.players pid).actions_remaining = (a.s.players pid).actions_remaining - 1 ∧
    ((a.s.players pid).actions_remaining - 1 ≤ 0 →
      a2.s.turn_number = a.s.turn_number + 1) ∧
    (0 < (a.s.players pid).actions_remaining - 1 →
      a2.s.turn_number = a.s.turn_number) := by
  obtain ⟨hcap, hact, hpos⟩ := hinv
  simp only [apply_move] at hok
  split at hok
  · exact absurd hok (by simp)
  rename_i u hsrc
  split at hok
  · exact absurd hok (by simp)
  split at hok
  · exact absurd hok (by simp)
  split at hok
  · exact absurd hok (by simp)
  split at hok
  · obtain rfl := (Except.ok.inj hok).symm
    refine ⟨end_turn_inv _ a.dc
      (mutated_inv a.s pid _ _ (fun t2 => hcap pid t2) (by simp only []; omega) ?_
        ⟨hcap, hact, hpos⟩), ?_, fun _ => ?_, fun hgt => absurd hgt (by omega)⟩
    · intro p v hv
      simp only [ite_apply, update_grid] at hv
      split_ifs at hv <;>
        first
          | exact hpos p v hv
          | (clear hok
             obtain rfl := (Option.some.inj hv).symm
             first
               | rfl
               | exact hpos _ _ hsrc
               | (simp_all
                  try exact hpos source.1 source.2 _ hsrc))
          | (clear hok
             simp_all)
    · rw [end_turn_players_other _ a.dc pid
        (by show ¬ pid = 1 - a.s.current_player; rw [← hcur]; omega)]
      exact congrArg Player.actions_remaining (update_players_same a.s.players pid _)
    · rw [end_turn_turn_number]
  · obtain rfl := (Except.ok.inj hok).symm
    rename_i hend
    refine ⟨mutated_inv a.s pid _ _ (fun t2 => hcap pid t2) (by simp only []; omega) ?_
      ⟨hcap, hact, hpos⟩, ?_, fun hle => absurd hle hend, fun _ => rfl⟩
    · intro p v hv
      simp only [ite_apply, update_grid] at hv
      split_ifs at hv <;>
        first
          | exact hpos p v hv
          | (clear hok
             obtain rfl := (Option.some.inj hv).symm
             first
               | rfl
               | exact hpos _ _ hsrc
               | (simp_all
                  try exact hpos source.1 source.2 _ hsrc))
          | (clear hok
             simp_all)
    · exact congrArg Player.actions_remaining (update_players_same a.s.players pid _)

/-- `_apply_attack` on success: the invariant is preserved, the acting
player's budget drops by one, and the auto-end-turn fires exactly when it
reaches zero. -/
lemma apply_attack_ok (a : ApplyState) (source target : Pos) (pid : Nat) (a2 : ApplyState)
    (hcur : pid = a.s.current_player) (hact0 : 0 < (a.s.players pid).actions_remaining)
    (hinv : StateInv a.s)
    (hok : apply_attack a source target pid = Except.ok a2) :
    StateInv a2.s ∧
    (a2.s.players pid).actions_remaining = (a.s.players pid).actions_remaining - 1 ∧
    ((a.s.players pid).actions_remaining - 1 ≤ 0 →
      a2.s.turn_number = a.s.turn_number + 1) ∧
    (0 < (a.s.players pid).actions_remaining - 1 →
      a2.s.turn_number = a.s.turn_number) := by
  obtain ⟨hcap, hact, hpos⟩ := hinv
  simp only [apply_attack] at hok
  split at hok
  · exact absurd hok (by simp)
  rename_i attacker hsrc
  split at hok
  · exact absurd hok (by simp)
  split at hok
  · exact absurd hok (by simp)
  split at hok
  · exact absurd hok (by simp)
  rename_i defender htgt
  split at hok
  · exact absurd hok (by simp)
  split at hok
  · exact absurd hok (by simp)
  split at hok
  · obtain rfl := (Except.ok.inj hok).symm
    refine ⟨end_turn_inv _ a.dc
      (mutated_inv a.s pid _ _ (fun t2 => hcap pid t2) (by simp only []; omega) ?_
        ⟨hcap, hact, hpos⟩), ?_, fun _ => ?_, fun hgt => absurd hgt (by omega)⟩
    · intro p v hv
      simp only [ite_apply, update_grid] at hv
      split_ifs at hv <;>
        first
          | exact hpos p v hv
          | (clear hok
             obtain rfl := (Option.some.inj hv).symm
             first
               | rfl
               | exact hpos _ _ hsrc
               | (simp_all
                  try exact hpos source.1 source.2 _ hsrc))
          | (clear hok
             simp_all)
    · rw [end_turn_players_other _ a.dc pid
        (by show ¬ pid = 1 - a.s.current_player; rw [← hcur]; omega)]
      exact congrArg Player.actions_remaining (update_players_same a.s.players pid _)
    · rw [end_turn_turn_number]
  · obtain rfl := (Except.ok.inj hok).symm
    rename_i hend
    refine ⟨mutated_inv a.s pid _ _ (fun t2 => hcap pid t2) (by simp only []; omega) ?_
      ⟨hcap, hact, hpos⟩, ?_, fun hle => absurd hle hend, fun _ => rfl⟩
    · intro p v hv
      simp only [ite_apply, update_grid] at hv
      split_ifs at hv <;>
        first
          | exact hpos p v hv
          | (clear hok
             obtain rfl := (Option.some.inj hv).symm
             first
               | rfl
               | exact hpos _ _ hsrc
               | (simp_all
                  try exact hpos source.1 source.2 _ hsrc))
          | (clear hok
             simp_all)
    · exact congrArg Player.actions_remaining (update_players_same a.s.players pid _)

/-- `_apply_rotate` on success: the invariant is preserved, the acting
player's budget drops by one, and the auto-end-turn fires exactly when it
reaches zero. -/
lemma apply_rotate_ok (a : ApplyState) (source target : Pos) (pid : Nat) (a2 : ApplyState)
    (hcur : pid = a.s.current_player) (hact0 : 0 < (a.s.players pid).actions_remaining)
    (hinv : StateInv a.s)
    (hok : apply_rotate a source target pid = Except.ok a2) :
    StateInv a2.s ∧
    (a2.s.players pid).actions_remaining = (a.s.players pid).actions_remaining - 1 ∧
    ((a.s.players pid).actions_remaining - 1 ≤ 0 →
      a2.s.turn_number = a.s.turn_number + 1) ∧
    (0 < (a.s.players pid).actions_remaining - 1 →
      a2.s.turn_number = a.s.turn_number) := by
  obtain ⟨hcap, hact, hpos⟩ := hinv
  simp only [apply_rotate] at hok
  split at hok
  · exact absurd hok (by simp)
  rename_i u hsrc
  split at hok
  · exact absurd hok (by simp)
  split at hok
  · exact absurd hok (by simp)
  split at hok
  · exact absurd hok (by simp)
  rename_i target_unit htgt
  split at hok
  · exact absurd hok (by simp)
  split at hok
  · exact absurd hok (by simp)
  split at hok
  · exact absurd hok (by simp)
  split at hok
  · obtain rfl := (Except.ok.inj hok).symm
    refine ⟨end_turn_inv _ a.dc
      (mutated_inv a.s pid _ _ (fun t2 => hcap pid t2) (by simp only []; omega) ?_
        ⟨hcap, hact, hpos⟩), ?_, fun _ => ?_, fun hgt => absurd hgt (by omega)⟩
    · intro p v hv
      simp only [ite_apply, update_grid] at hv
      split_ifs at hv <;>
        first
          | exact hpos p v hv
          | (clear hok
             obtain rfl := (Option.some.inj hv).symm
             first
               | rfl
               | (simp_all
                  try rfl))
          | (clear hok
             simp_all)
    · rw [end_turn_players_other _ a.dc pid
        (by show ¬ pid = 1 - a.s.current_player; rw [← hcur]; omega)]
      exact congrArg Player.actions_remaining (update_players_same a.s.players pid _)
    · rw [end_turn_turn_number]
  · obtain rfl := (Except.ok.inj hok).symm
    rename_i hend
    refine ⟨mutated_inv a.s pid _ _ (fun t2 => hcap pid t2) (by simp only []; omega) ?_
      ⟨hcap, hact, hpos⟩, ?_, fun hle => absurd hle hend, fun _ => rfl⟩
    · intro p v hv
      simp only [ite_apply, update_grid] at hv
      split_ifs at hv <;>
        first
          | exact hpos p v hv
          | (clear hok
             obtain rfl := (Option.some.inj hv).symm
             first
               | rfl
               | (simp_all
                  try rfl))
          | (clear hok
             simp_all)
    · exact congrArg Player.actions_remaining (update_players_same a.s.players pid _)

/-- Whether an action kind is one of the four mutating kinds (everything
except `END_TURN`). -/
def is_mutating : GameAction → Bool
  | GameAction.end_turn => false
  | _ => true

/-- `_apply_action` on success preserves the state invariant; a mutating
action additionally requires a positive budget, decrements it by one, and
triggers the auto-end-turn exactly when it reaches zero. -/
lemma apply_action_ok (a : ApplyState) (act : GameAction) (pid : Nat) (a2 : ApplyState)
    (hcur : pid = a.s.current_player) (hinv : StateInv a.s)
    (hok : apply_action a act pid = Except.ok a2) :
    StateInv a2.s ∧
    (is_mutating act = true →
      0 < (a.s.players pid).actions_remaining ∧
      (a2.s.players pid).actions_remaining = (a.s.players pid).actions_remaining - 1 ∧
      ((a.s.players pid).actions_remaining - 1 ≤ 0 →
        a2.s.turn_number = a.s.turn_number + 1) ∧
      (0 < (a.s.players pid).actions_remaining - 1 →
        a2.s.turn_number = a.s.turn_number)) := by
  cases act
  case end_turn =>
    simp only [apply_action] at hok
    obtain rfl := (Except.ok.inj hok).symm
    refine ⟨end_turn_inv a.s a.dc hinv, fun hmut => ?_⟩
    simp [is_mutating] at hmut
  case deploy t col =>
    simp only [apply_action] at hok
    split at hok
    · exact absurd hok (by simp)
    rename_i h0
    have h0' : 0 < (a.s.players pid).actions_remaining := by omega
    obtain ⟨h1, h2, h3, h4⟩ := apply_deploy_ok a t col pid a2 hcur h0' hinv hok
    exact ⟨h1, fun _ => ⟨h0', h2, h3, h4⟩⟩
  case move source target =>
    simp only [apply_action] at hok
    split at hok
    · exact absurd hok (by simp)
    rename_i h0
    have h0' : 0 < (a.s.players pid).actions_remaining := by omega
    obtain ⟨h1, h2, h3, h4⟩ := apply_move_ok a source target pid a2 hcur h0' hinv hok
    exact ⟨h1, fun _ => ⟨h0', h2, h3, h4⟩⟩
  case attack source target =>
    simp only [apply_action] at hok
    split at hok
    · exact absurd hok (by simp)
    rename_i h0
    have h0' : 0 < (a.s.players pid).actions_remaining := by omega
    obtain ⟨h1, h2, h3, h4⟩ := apply_attack_ok a source target pid a2 hcur h0' hinv hok
    exact ⟨h1, fun _ => ⟨h0', h2, h3, h4⟩⟩
  case rotate source target =>
    simp only [apply_action] at hok
    split at hok
    · exact absurd hok (by simp)
    rename_i h0
    have h0' : 0 < (a.s.players pid).actions_remaining := by omega
    obtain ⟨h1, h2, h3, h4⟩ := apply_rotate_ok a source target pid a2 hcur h0' hinv hok
    exact ⟨h1, fun _ => ⟨h0', h2, h3, h4⟩⟩

/-- The fresh state installed by `reset` satisfies the invariant. -/
lemma init_state_inv : StateInv init_state := by
  refine ⟨?_, ?_, ?_⟩
  · intro pid t
    simp only [init_state]
    split_ifs <;> simp [MAX_DEPLOYMENTS_PER_TYPE]
  · intro pid
    simp only [init_state]
    split_ifs <;> norm_num
  · intro p u hu
    cases hu

/-- Every reachable engine state satisfies the invariant. -/
lemma reachable_inv (e : Env) (h : Reachable e) :
    ∀ s : GameState, e.state = some s → StateInv s := by
  induction h with
  | reset_base r tm =>
    intro s hs
    obtain rfl : init_state = s := Option.some.inj hs
    exact init_state_inv
  | reset_again _ _ =>
    intro s hs
    obtain rfl : init_state = s := Option.some.inj hs
    exact init_state_inv
  | step_ok e1 act1 pid1 res1 hr hstep ih =>
    intro s' hs'
    unfold step at hstep
    split at hstep
    · exact absurd hstep (by simp)
    · rename_i s hs
      simp only [] at hstep
      by_cases hturn : pid1 = s.current_player
      · rw [if_neg (by simpa using hturn)] at hstep
        split at hstep
        · obtain rfl := (Except.ok.inj hstep).symm
          simp only [hs] at hs'
          obtain rfl := Option.some.inj hs'
          exact ih _ hs
        · rename_i a2 happ
          obtain rfl := (Except.ok.inj hstep).symm
          rw [step_success_state] at hs'
          obtain rfl := Option.some.inj hs'
          exact (apply_action_ok _ _ _ a2 hturn (ih s hs) happ).1
      · rw [if_pos (by simpa using hturn)] at hstep
        obtain rfl := (Except.ok.inj hstep).symm
        exact ih s' hs'


/-- C8: in every reachable state each player's per-type deployment count
is at most 3, and `_apply_deploy` rejects any deploy of a type whose count
has reached the cap. -/
theorem c8_deployment_cap (e : Env) (s : GameState) (he : Reachable e)
    (hs : e.state = some s) :
    (∀ pid : Nat, ∀ t : UnitType,
      (s.players pid).deployment_counts t ≤ MAX_DEPLOYMENTS_PER_TYPE) ∧
    (∀ t : UnitType, ∀ col pid : Nat, ∀ dc : DrawCounters, ∀ uc : Nat, ∀ a2 : ApplyState,
      MAX_DEPLOYMENTS_PER_TYPE ≤ (s.players pid).deployment_counts t →
      ¬ apply_deploy ⟨s, dc, uc⟩ t col pid = Except.ok a2) := by
  refine ⟨(reachable_inv e he s hs).1, ?_⟩
  intro t col pid dc uc a2 hcnt hok
  simp only [apply_deploy] at hok
  split at hok
  · exact absurd hok (by simp)
  split at hok <;>
    first
      | exact absurd hok (by simp)
      | (rename_i hcnt2
         exact absurd hcnt hcnt2)

/-- C8 witness: the cap theorem evaluated on the freshly reset engine. -/
theorem c8_witness :
    (init_state.players 0).deployment_counts UnitType.archer ≤ MAX_DEPLOYMENTS_PER_TYPE :=
  (c8_deployment_cap (reset (init_env default_rewards true)) init_state
    (Reachable.reset_base default_rewards true) rfl).1 0 UnitType.archer

/-- C9: in every reachable state no player's `actions_remaining` is
negative; and a successfully applied mutating action triggers an end-turn
(the turn number advances) exactly when it leaves the acting player's
budget at zero. -/
theorem c9_turn_economy (e : Env) (s : GameState) (he : Reachable e)
    (hs : e.state = some s) :
    (∀ pid : Nat, 0 ≤ (s.players pid).actions_remaining) ∧
    (∀ action player_id : Nat, ∀ r : StepResult, ∀ s2 : GameState,
      step e action player_id = Except.ok r → r.error = none →
      is_mutating (parse_action action) = true → r.env.state = some s2 →
      ((s2.players player_id).actions_remaining = 0 ↔
        s2.turn_number = s.turn_number + 1) ∧
      (¬ (s2.players player_id).actions_remaining = 0 →
        s2.turn_number = s.turn_number)) := by
  refine ⟨(reachable_inv e he s hs).2.1, ?_⟩
  intro action player_id r s2 hstep herr hmut hs2
  unfold step at hstep
  split at hstep
  · exact absurd hstep (by simp)
  rename_i s0 hs0
  obtain rfl : s0 = s := by
    rw [hs0] at hs
    exact Option.some.inj hs
  simp only [] at hstep
  by_cases hturn : player_id = s0.current_player
  case neg =>
    rw [if_pos (by simpa using hturn)] at hstep
    obtain rfl := (Except.ok.inj hstep).symm
    cases herr
  rw [if_neg (by simpa using hturn)] at hstep
  split at hstep
  · obtain rfl := (Except.ok.inj hstep).symm
    cases herr
  rename_i a2 happ
  obtain rfl := (Except.ok.inj hstep).symm
  rw [step_success_state] at hs2
  obtain rfl := Option.some.inj hs2
  obtain ⟨hpre, hdec, hup, hsame⟩ :=
    (apply_action_ok _ _ _ a2 hturn (reachable_inv e he s0 hs) happ).2 hmut
  simp only [] at hpre hdec hup hsame
  constructor
  · constructor
    · intro h0
      exact hup (by omega)
    · intro ht
      by_contra hne
      have := hsame (by omega)
      omega
  · intro hne
    exact hsame (by omega)

/-- The step result of the C9 witness call (the first deploy of a fresh
game, which spends the only action and auto-ends the turn). -/
def c9_result : StepResult :=
  (step env0 0 0).toOption.getD
    { env := env0, reward := 0, done := false, error := none, winner := none }

/-- The game state after the C9 witness call. -/
def c9_state : GameState := (state_after env0 0 0).getD init_state

/-- C9 witness: the turn-economy theorem applied to the concrete first
deploy — the budget hits zero and the turn number advances. -/
theorem c9_witness : c9_state.turn_number = init_state.turn_number + 1 :=
  ((c9_turn_economy env0 init_state (Reachable.reset_base default_rewards true) rfl).2
    0 0 c9_result c9_state rfl rfl (by decide) rfl).1.mp (by decide)

/-- C10: in every reachable state, every unit stored at a grid cell has
its `position` field equal to that cell. -/
theorem c10_position_sync (e : Env) (s : GameState) (he : Reachable e)
    (hs : e.state = some s) :
    ∀ p : Pos, ∀ u : Unit, s.grid p = some u → u.position = p :=
  (reachable_inv e he s hs).2.2

/-- The step result of the C10 witness call (the first deploy of a fresh
game). -/
def c10_result : StepResult :=
  (step env0 0 0).toOption.getD
    { env := env0, reward := 0, done := false, error := none, winner := none }

/-- The game state after the C10 witness call. -/
def c10_state : GameState := (state_after env0 0 0).getD init_state

/-- The unit deployed at (0,0) by the C10 witness call. -/
def c10_unit : Unit :=
  (c10_state.grid (0, 0)).getD
    { id := 0, owner_id := 0, unit_type := UnitType.swordsman,
      position := (0, 0), acted_this_turn := false }

/-- C10 witness: the position-synchronisation theorem applied after the
concrete first deploy — the deployed unit's position field is (0,0). -/
theorem c10_witness : c10_unit.position = (0, 0) :=
  c10_position_sync c10_result.env c10_state
    (Reachable.step_ok env0 0 0 c10_result (Reachable.reset_base default_rewards true) rfl)
    rfl (0, 0) c10_unit rfl

lemma parse_encode_deploy_mask : ∀ i, i < 5 → ∀ c, c < 5 →
    parse_action (encode_deploy (i + 1) c) = GameAction.deploy (unitTypeOfNat (i + 1)) c := by
  decide

lemma parse_encode_move_mask : ∀ r1, r1 < 5 → ∀ c1, c1 < 5 → ∀ r2, r2 < 5 → ∀ c2, c2 < 5 →
    parse_action (encode_move (r1, c1) (r2, c2)) = GameAction.move (r1, c1) (r2, c2) := by
  decide

lemma parse_encode_attack_mask : ∀ r1, r1 < 5 → ∀ c1, c1 < 5 → ∀ r2, r2 < 5 → ∀ c2, c2 < 5 →
    parse_action (encode_attack (r1, c1) (r2, c2)) = GameAction.attack (r1, c1) (r2, c2) := by
  decide

lemma parse_encode_rotate_mask : ∀ r1, r1 < 5 → ∀ c1, c1 < 5 → ∀ r2, r2 < 5 → ∀ c2, c2 < 5 →
    parse_action (encode_rotate (r1, c1) (r2, c2)) = GameAction.rotate (r1, c1) (r2, c2) := by
  decide

lemma mem_cells (p : Pos) (hp : p ∈ cells) : p.1 < 5 ∧ p.2 < 5 := by
  simp only [cells, List.mem_flatMap, List.mem_map, List.mem_range] at hp
  obtain ⟨r, hr, c, hc, rfl⟩ := hp
  exact ⟨hr, hc⟩

/-- `_apply_deploy` succeeds whenever the mask's deploy conditions hold. -/
lemma apply_deploy_succeeds (a : ApplyState) (t : UnitType) (col pid : Nat)
    (hdep : 0 < (a.s.players pid).deployments_remaining)
    (hgrid : a.s.grid (deploy_row pid, col) = none)
    (hcnt : (a.s.players pid).deployment_counts t < MAX_DEPLOYMENTS_PER_TYPE) :
    ∃ a2, apply_deploy a t col pid = Except.ok a2 := by
  simp only [apply_deploy, hgrid]
  rw [if_neg (by omega), if_neg (by omega)]
  split_ifs <;> exact ⟨_, rfl⟩

/-- `_apply_move` succeeds whenever the mask's move conditions hold. -/
lemma apply_move_succeeds (a : ApplyState) (source target : Pos) (pid : Nat) (u : Unit)
    (hsrc : a.s.grid source = some u) (howner : u.owner_id = pid)
    (hacted : u.acted_this_turn = false)
    (hmv : can_move a.s u source target = true) :
    ∃ a2, apply_move a source target pid = Except.ok a2 := by
  simp only [apply_move, hsrc]
  rw [if_neg (by simp [howner]), if_neg (by simp [hacted]), if_neg (by simp [hmv])]
  split_ifs <;> exact ⟨_, rfl⟩

/-- `_apply_attack` succeeds whenever the mask's attack conditions hold. -/
lemma apply_attack_succeeds (a : ApplyState) (source target : Pos) (pid : Nat)
    (attacker defender : Unit)
    (hsrc : a.s.grid source = some attacker) (howner : attacker.owner_id = pid)
    (hacted : attacker.acted_this_turn = false)
    (htgt : a.s.grid target = some defender) (hdef : ¬ defender.owner_id = pid)
    (hca : can_attack a.s attacker source target defender = true) :
    ∃ a2, apply_attack a source target pid = Except.ok a2 := by
  simp only [apply_attack, hsrc, htgt]
  rw [if_neg (by simp [howner]), if_neg (by simp [hacted]), if_neg hdef,
    if_neg (by simp [hca])]
  split_ifs <;> exact ⟨_, rfl⟩

/-- `_apply_rotate` succeeds whenever `_can_rotate` accepts for a friendly
unit that has not acted: the apply helper inlines exactly the same
geometry checks. -/
lemma apply_rotate_succeeds (a : ApplyState) (source target : Pos) (pid : Nat) (u : Unit)
    (hsrc : a.s.grid source = some u) (howner : u.owner_id = pid)
    (hacted : u.acted_this_turn = false)
    (hcr : can_rotate a.s u source target pid = true) :
    ∃ a2, apply_rotate a source target pid = Except.ok a2 := by
  simp only [can_rotate] at hcr
  split at hcr
  · cases hcr
  rename_i tu htu
  simp only [apply_rotate, hsrc, htu]
  rw [if_neg (by simp [howner]), if_neg (by simp [hacted])]
  by_cases h1 : tu.owner_id = pid
  case neg =>
    rw [if_pos (by simpa using h1)] at hcr
    cases hcr
  rw [if_neg (by simpa using h1)] at hcr
  rw [if_neg (by simpa using h1)]
  by_cases h2 : u.unit_type = tu.unit_type
  case pos =>
    rw [if_pos h2] at hcr
    cases hcr
  rw [if_neg h2] at hcr
  rw [if_neg h2]
  by_cases h3 : abs_diff target.2 source.2 + abs_diff target.1 source.1 = 1
  · rw [if_pos h3]
    simp only []
    split_ifs <;> exact ⟨_, rfl⟩
  · rw [if_neg h3] at hcr
    rw [if_neg h3]
    by_cases hdiag : abs_diff target.2 source.2 = 1 ∧ abs_diff target.1 source.1 = 1
    · by_cases hcav : u.unit_type = UnitType.cavalry
      · rw [if_pos hdiag, if_neg (by simpa using hcav)]
        simp only []
        split_ifs <;> exact ⟨_, rfl⟩
      · rw [if_neg (fun hc => hcav hc.2)] at hcr
        rw [if_neg (fun hc => hcav hc.2.2)] at hcr
        cases hcr
    · rw [if_neg (fun hc => hdiag hc.1)] at hcr
      rw [if_neg hdiag]
      by_cases h5 : abs_diff target.2 source.2 + abs_diff target.1 source.1 = 2 ∧
          (abs_diff target.2 source.2 = 0 ∨ abs_diff target.1 source.1 = 0) ∧
          u.unit_type = UnitType.cavalry
      · rw [if_pos h5] at hcr
        rw [if_pos ⟨h5.1, h5.2.1⟩, if_neg (by simpa using h5.2.2)]
        rw [Option.isNone_iff_eq_none] at hcr
        rw [if_neg (by simp [hcr])]
        simp only []
        split_ifs <;> exact ⟨_, rfl⟩
      · rw [if_neg h5] at hcr
        cases hcr

/-- C1 (amended, soundness direction): every action whose mask bit is 1 is
accepted by `step` — the mask never marks an action legal that `step`
would reject. -/
theorem c1_mask_sound (e : Env) (player_id a : Nat)
    (h : get_valid_actions_mask e player_id a = true) :
    step_accepts e a player_id = true := by
  unfold get_valid_actions_mask at h
  split at h
  · cases h
  rename_i s hs
  by_cases hturn : player_id = s.current_player
  case neg =>
    rw [if_pos (by simpa using hturn)] at h
    cases h
  rw [if_neg (by simpa using hturn)] at h
  have happly : ∃ a2,
      apply_action
        ⟨s, ⟨e.turns_since_last_capture, e.turns_since_last_unit_death⟩, e.unit_counter⟩
        (parse_action a) player_id = Except.ok a2 := by
    simp only [Bool.or_eq_true, Bool.and_eq_true, decide_eq_true_eq] at h
    rcases h with ((((⟨⟨hact, hdep⟩, hbit⟩ | ⟨hact, hbit⟩) | ⟨hact, hbit⟩) | ⟨hact, hbit⟩) | hend)
    · -- deploy bits
      rcases List.any_eq_true.mp hbit with ⟨i, hi, hfi⟩
      rw [List.mem_range] at hi
      by_cases hcnt : MAX_DEPLOYMENTS_PER_TYPE ≤
          (s.players player_id).deployment_counts (unitTypeOfNat (i + 1))
      · rw [if_pos hcnt] at hfi
        cases hfi
      rw [if_neg hcnt] at hfi
      rcases List.any_eq_true.mp hfi with ⟨c, hc, hg⟩
      rw [List.mem_range] at hc
      simp only [Bool.and_eq_true, beq_iff_eq, Option.isNone_iff_eq_none] at hg
      obtain ⟨hgrid, rfl⟩ := hg
      rw [parse_encode_deploy_mask i hi c hc]
      simp only [apply_action]
      rw [if_neg (by omega)]
      exact apply_deploy_succeeds _ _ _ _
        (show 0 < (s.players player_id).deployments_remaining by omega) hgrid
        (show (s.players player_id).deployment_counts (unitTypeOfNat (i + 1)) <
          MAX_DEPLOYMENTS_PER_TYPE by omega)
    · -- move bits
      rcases List.any_eq_true.mp hbit with ⟨⟨r1, c1⟩, hmem, hf⟩
      obtain ⟨hb1, hb2⟩ := mem_cells _ hmem
      split at hf
      case h_2 => cases hf
      rename_i u hu
      simp only [Bool.and_eq_true, beq_iff_eq, Bool.not_eq_true'] at hf
      obtain ⟨⟨howner, hacted⟩, hany⟩ := hf
      rcases List.any_eq_true.mp hany with ⟨⟨r2, c2⟩, hmem2, hg⟩
      obtain ⟨hb3, hb4⟩ := mem_cells _ hmem2
      simp only [Bool.and_eq_true, beq_iff_eq] at hg
      obtain ⟨hmv, rfl⟩ := hg
      rw [parse_encode_move_mask r1 hb1 c1 hb2 r2 hb3 c2 hb4]
      simp only [apply_action]
      rw [if_neg (by omega)]
      exact apply_move_succeeds _ _ _ _ u hu howner hacted hmv
    · -- attack bits
      rcases List.any_eq_true.mp hbit with ⟨⟨r1, c1⟩, hmem, hf⟩
      obtain ⟨hb1, hb2⟩ := mem_cells _ hmem
      split at hf
      case h_2 => cases hf
      rename_i u hu
      simp only [Bool.and_eq_true, Bool.not_eq_true'] at hf
      obtain ⟨⟨howner, hacted⟩, hany⟩ := hf
      rw [beq_iff_eq] at howner
      rcases List.any_eq_true.mp hany with ⟨⟨r2, c2⟩, hmem2, hg⟩
      obtain ⟨hb3, hb4⟩ := mem_cells _ hmem2
      split at hg
      case h_2 => cases hg
      rename_i tu htu
      simp only [Bool.and_eq_true, beq_iff_eq, Bool.not_eq_true'] at hg
      obtain ⟨⟨hdef, hca⟩, rfl⟩ := hg
      rw [parse_encode_attack_mask r1 hb1 c1 hb2 r2 hb3 c2 hb4]
      simp only [apply_action]
      rw [if_neg (by omega)]
      refine apply_attack_succeeds _ _ _ _ u tu hu howner hacted htu ?_ hca
      simp only [beq_eq_false_iff_ne, ne_eq] at hdef
      exact hdef
    · -- rotate bits
      rcases List.any_eq_true.mp hbit with ⟨⟨r1, c1⟩, hmem, hf⟩
      obtain ⟨hb1, hb2⟩ := mem_cells _ hmem
      split at hf
      case h_2 => cases hf
      rename_i u hu
      simp only [Bool.and_eq_true, beq_iff_eq, Bool.not_eq_true'] at hf
      obtain ⟨⟨howner, hacted⟩, hany⟩ := hf
      rcases List.any_eq_true.mp hany with ⟨⟨r2, c2⟩, hmem2, hg⟩
      obtain ⟨hb3, hb4⟩ := mem_cells _ hmem2
      simp only [Bool.and_eq_true, beq_iff_eq] at hg
      obtain ⟨hcr, rfl⟩ := hg
      rw [parse_encode_rotate_mask r1 hb1 c1 hb2 r2 hb3 c2 hb4]
      simp only [apply_action]
      rw [if_neg (by omega)]
      exact apply_rotate_succeeds _ _ _ _ u hu howner hacted hcr
    · -- end turn
      rw [beq_iff_eq] at hend
      subst hend
      have hparse : parse_action (ACTION_SPACE_SIZE - 1) = GameAction.end_turn := by decide
      rw [hparse]
      exact ⟨_, rfl⟩
  obtain ⟨a2, ha2⟩ := happly
  unfold step_accepts step
  simp only [hs]
  rw [if_neg (by simpa using hturn)]
  rw [ha2]
  simp [step_success_error]

/-- C1 witness: the soundness theorem applied to a concrete bit of the
fresh game's mask (the canonical swordsman deploy at column 0). -/
theorem c1_witness : step_accepts env0 0 0 = true :=
  c1_mask_sound env0 0 0 (by decide)

/-- C1 counterexample: on the freshly reset engine (a reachable state),
action index 5 decodes to the same swordsman deploy as index 0 and `step`
accepts it, but its mask bit is 0 — the mask only marks the canonical
encoding, so bit 1 is not equivalent to step success. -/
theorem c1_counterexample :
    Reachable env0 ∧ 5 < ACTION_SPACE_SIZE ∧
      get_valid_actions_mask env0 0 5 = false ∧ step_accepts env0 5 0 = true :=
  ⟨Reachable.reset_base default_rewards true, by decide, by decide, by decide⟩

end NovusX
